import Mathlib

/-!
# Verification of `scripts/collect_results.py`

A shallow embedding of the result-collection pipeline of the
h3-spatial-cache repository, together with proofs of the specified
properties.

Modelling conventions:
* Python floats are modelled exactly as optional rationals: `none`
  stands for the IEEE not-a-number sentinel (`float("nan")`),
  `some q` for a finite float of value `q`.  Infinities never arise in
  the pipeline and are outside the model; binary rounding is abstracted
  away (every claimed equality is exact in both models).
* Python scalar values flowing through rows, JSON summaries and CSV
  cells are modelled by the inductive `PyVal`.
* The filesystem corpus is modelled by explicit data (`RootDir`,
  `BundleEntry`, `RepEntry`): file contents appear as parsed data, file
  existence and parse failures as `Option` layers.
* Fallible parsers return `Option` instead of raising.
-/

set_option maxHeartbeats 1000000

namespace CollectResults

/-- Python scalar values as they occur in this pipeline's rows, JSON
summaries and CSV cells.  `vFloat none` is the not-a-number float. -/
inductive PyVal where
  | vNone : PyVal
  | vStr (s : String) : PyVal
  | vInt (n : ℤ) : PyVal
  | vFloat (q : Option ℚ) : PyVal
deriving DecidableEq, Repr

/-- Numeric value of a run of decimal digit characters. -/
def digitsVal (ds : List Char) : ℕ :=
  ds.foldl (fun a c => 10 * a + (c.toNat - 48)) 0

/-- ASCII decimal digit (`[0-9]`). -/
def isDigitC (c : Char) : Bool := 48 ≤ c.toNat && c.toNat ≤ 57

/-- ASCII letter (`[A-Za-z]`). -/
def isAlphaC (c : Char) : Bool :=
  (65 ≤ c.toNat && c.toNat ≤ 90) || (97 ≤ c.toNat && c.toNat ≤ 122)

/-- ASCII whitespace as Python's `\s` and `str.strip()` treat it
(space, tab, newline, vertical tab, form feed, carriage return). -/
def isSpaceC (c : Char) : Bool :=
  c.toNat = 32 || c.toNat = 9 || c.toNat = 10 || c.toNat = 11
    || c.toNat = 12 || c.toNat = 13

/-- Python `str.strip()` on a character list: drop whitespace from both
ends. -/
def stripChars (cs : List Char) : List Char :=
  ((cs.dropWhile isSpaceC).reverse.dropWhile isSpaceC).reverse

/-- Python `str.strip()`. -/
def pyStrip (s : String) : String := String.mk (stripChars s.toList)

/-- Python `str.lower()` (ASCII case mapping; the tracked labels are
ASCII). -/
def pyLower (s : String) : String := String.mk (s.toList.map Char.toLower)

/-- Python `str.startswith(pre)`. -/
def pyStartsWith (s pre : String) : Bool :=
  s.toList.take pre.toList.length = pre.toList

/-- The exact rational value of a decimal literal with sign, integer
digits, fractional digits and signed exponent:
`sgn * ip.fp * 10 ^ e`, built with `mkRat` so that it computes. -/
def decValue (sgn : ℤ) (ip fp : List Char) (e : ℤ) : ℚ :=
  let m : ℤ := sgn * ((digitsVal ip : ℤ) * (10 : ℤ) ^ fp.length + (digitsVal fp : ℤ))
  if 0 ≤ e then mkRat (m * (10 : ℤ) ^ e.toNat) ((10 : ℕ) ^ fp.length)
  else mkRat m ((10 : ℕ) ^ (fp.length + (-e).toNat))

/-- Exact rational addition, built with `mkRat` so that it computes. -/
def qAdd (a b : ℚ) : ℚ :=
  mkRat (a.num * (b.den : ℤ) + b.num * (a.den : ℤ)) (a.den * b.den)

/-- Exact rational division by a natural number. -/
def qDivNat (q : ℚ) (n : ℕ) : ℚ := mkRat q.num (q.den * n)

/-- Exact rational multiplication by a natural number. -/
def qMulNat (q : ℚ) (n : ℕ) : ℚ := mkRat (q.num * (n : ℤ)) q.den

/-- Exact `q * m / n` for natural `m`, `n`. -/
def qMulDivNat (q : ℚ) (m n : ℕ) : ℚ := mkRat (q.num * (m : ℤ)) (q.den * n)

/-- Exact rational division. -/
def qDiv (a b : ℚ) : ℚ := Rat.divInt (a.num * (b.den : ℤ)) ((a.den : ℤ) * b.num)

/-- Exponent suffix of a Python float literal: empty, or
`[eE][+-]?digits`.  Returns the signed exponent, `none` on anything
else (which makes the whole literal invalid). -/
def expSuffix (cs : List Char) : Option ℤ :=
  match cs with
  | [] => some 0
  | c :: t =>
    if c = 'e' ∨ c = 'E' then
      let (es, t1) : ℤ × List Char :=
        match t with
        | '+' :: u => (1, u)
        | '-' :: u => (-1, u)
        | u => (1, u)
      let ds := t1.takeWhile isDigitC
      let rest := t1.dropWhile isDigitC
      if ds.isEmpty ∨ ¬ rest.isEmpty then none else some (es * (digitsVal ds : ℤ))
    else none

/-- Model of Python `float(s)` on an already-stripped string, restricted
to finite decimal literals: `[+-]? (digits [. digits*] | . digits+)
([eE][+-]?digits)?`.  Returns `none` both on malformed input and on the
non-finite literals (`nan`, `inf`), which the pipeline treats exactly
like a parse failure (both yield the not-a-number sentinel).  Numeric
underscore separators are not modelled. -/
def pyFloatChars (cs : List Char) : Option ℚ :=
  let (sgn, cs1) : ℤ × List Char :=
    match cs with
    | '+' :: t => (1, t)
    | '-' :: t => (-1, t)
    | t => (1, t)
  let ip := cs1.takeWhile isDigitC
  let r1 := cs1.dropWhile isDigitC
  match r1 with
  | '.' :: t =>
    let fp := t.takeWhile isDigitC
    let r2 := t.dropWhile isDigitC
    if ip.isEmpty ∧ fp.isEmpty then none
    else
      match expSuffix r2 with
      | none => none
      | some e => some (decValue sgn ip fp e)
  | r =>
    if ip.isEmpty then none
    else
      match expSuffix r with
      | none => none
      | some e => some (decValue sgn ip [] e)

/-- Model of Python `float(s)` on a string (see `pyFloatChars`). -/
def pyFloat (s : String) : Option ℚ := pyFloatChars s.toList

/-- Truncation toward zero, the behaviour of Python `int()` applied to a
finite float. -/
def truncQ (q : ℚ) : ℤ := Int.tdiv q.num q.den

/-- Model of `safe_float` of collect_results.py: best-effort conversion of any
value to a float, with not-a-number (`none`) for `None`, blank strings
and parse failures. -/
def safe_float (x : PyVal) : Option ℚ :=
  match x with
  | .vNone => none
  | .vInt n => some (n : ℚ)
  | .vFloat q => q
  | .vStr s =>
    let t := pyStrip s
    if t = "" then none else pyFloat t

/-- Model of `safe_int` of collect_results.py: best-effort conversion to an
integer via `int(float(str(x)))` (truncation toward zero), with a
default for `None`, blank strings and parse failures (and for the
not-a-number float, on which `int()` raises). -/
def safe_int (x : PyVal) (default : ℤ) : ℤ :=
  match x with
  | .vNone => default
  | .vInt n => n
  | .vFloat none => default
  | .vFloat (some q) => truncQ q
  | .vStr s =>
    let t := pyStrip s
    if t = "" then default
    else
      match pyFloat t with
      | none => default
      | some q => truncQ q

/-- Ascending stable sort of rationals (the sort `statistics.median`
performs; on a totally ordered type every stable sort agrees). -/
def sortRats (l : List ℚ) : List ℚ :=
  l.insertionSort (fun a b => a ≤ b)

/-- Model of `statistics.median` on a list of finite floats: middle element of
the sorted list for odd length, mean of the two middle elements for
even length, undefined (`none`) on the empty list (where the library
function raises; the pipeline never calls it on an empty list). -/
def median (l : List ℚ) : Option ℚ :=
  let s := sortRats l
  let n := s.length
  if n = 0 then none
  else if n % 2 = 1 then s.get? (n / 2)
  else
    match s.get? (n / 2 - 1), s.get? (n / 2) with
    | some a, some b => some (qDivNat (qAdd a b) 2)
    | _, _ => none

/-- Model of `median_ignore_nan` of collect_results.py: coerce every entry with
`safe_float`, drop the not-a-number results, and take the median;
a list with no finite value yields not-a-number. -/
def median_ignore_nan (values : List PyVal) : Option ℚ :=
  let nums := values.filterMap safe_float
  if nums.isEmpty then none else median nums

/-- Model of `parse_cpu_percent` of collect_results.py: strip, drop one trailing
`%`, strip again, parse as a float; not-a-number on failure. -/
def parse_cpu_percent (s : String) : Option ℚ :=
  let cs1 := stripChars s.toList
  let cs2 := if cs1.getLast? = some '%' then stripChars cs1.dropLast else cs1
  pyFloatChars cs2

/-- The magnitude part of the memory regex
`^\s*([0-9]*\.?[0-9]+)\s*([A-Za-z]+)\s*$`: a digit run, optionally
with a single decimal point that must be followed by at least one
digit.  Returns the magnitude and the rest of the input. -/
def memNum (cs : List Char) : Option (ℚ × List Char) :=
  let d1 := cs.takeWhile isDigitC
  let r1 := cs.dropWhile isDigitC
  if r1.head? = some '.' then
    let t := r1.tail
    let d2 := t.takeWhile isDigitC
    let r2 := t.dropWhile isDigitC
    if d2.isEmpty then none
    else some (decValue 1 d1 d2 0, r2)
  else
    if d1.isEmpty then none else some (decValue 1 d1 [] 0, r1)

/-- The unit-suffix conversion table of `mem_to_mib`: binary units by
powers of 1024, decimal units by powers of 1000 normalized to MiB by
1024²; `none` for an unrecognized unit. -/
def unitToMib (val : ℚ) (u : String) : Option ℚ :=
  if u = "B" then some (qDivNat val (1024 * 1024))
  else if u = "KiB" then some (qDivNat val 1024)
  else if u = "MiB" then some val
  else if u = "GiB" then some (qMulNat val 1024)
  else if u = "TiB" then some (qMulNat val (1024 * 1024))
  else if u = "KB" then some (qMulDivNat val 1000 (1024 * 1024))
  else if u = "MB" then some (qMulDivNat val (1000 * 1000) (1024 * 1024))
  else if u = "GB" then some (qMulDivNat val (1000 * 1000 * 1000) (1024 * 1024))
  else none

/-- Model of `mem_to_mib` of collect_results.py: match
`^\s*([0-9]*\.?[0-9]+)\s*([A-Za-z]+)\s*$`, then convert the magnitude
to MiB according to the unit table (binary units by powers of 1024,
decimal units by powers of 1000 normalized by 1024²); not-a-number for
an unrecognized unit or no regex match. -/
def mem_to_mib (mem_used_part : String) : Option ℚ :=
  let cs := mem_used_part.toList.dropWhile isSpaceC
  match memNum cs with
  | none => none
  | some (val, r) =>
    let r1 := r.dropWhile isSpaceC
    let unit := r1.takeWhile isAlphaC
    let r2 := (r1.dropWhile isAlphaC).dropWhile isSpaceC
    if unit.isEmpty ∨ ¬ r2.isEmpty then none
    else
      unitToMib val (String.mk unit)

/-- Model of `parse_mem_usage_to_mib` of collect_results.py: split a combined
`"used/limit"` string on the first `/`, strip the left (used) part and
convert it with `mem_to_mib`. -/
def parse_mem_usage_to_mib (mem_usage : String) : Option ℚ :=
  let left := stripChars (mem_usage.toList.takeWhile (fun c => c ≠ '/'))
  mem_to_mib (String.mk left)

/-- A parsed `datetime.datetime`: Gregorian date, time of day with
microseconds, and an optional UTC offset in minutes (`none` = naive). -/
structure DateTime where
  year : ℕ
  month : ℕ
  day : ℕ
  hour : ℕ
  minute : ℕ
  second : ℕ
  usec : ℕ
  tzMin : Option ℤ
deriving DecidableEq, Repr

/-- Gregorian leap year. -/
def isLeap (y : ℕ) : Bool := (y % 4 = 0 ∧ y % 100 ≠ 0) ∨ y % 400 = 0

/-- Length of a month. -/
def daysInMonth (y m : ℕ) : ℕ :=
  if m = 2 then (if isLeap y then 29 else 28)
  else if m = 4 ∨ m = 6 ∨ m = 9 ∨ m = 11 then 30 else 31

/-- Days from 1970-01-01 to the given civil date (valid for year ≥ 1,
which `fromisoformat` guarantees); the standard era-based formula. -/
def daysFromCivil (y m d : ℕ) : ℤ :=
  let yy := if m ≤ 2 then y - 1 else y
  let era := yy / 400
  let yoe := yy % 400
  let mp := (m + 9) % 12
  let doy := (153 * mp + 2) / 5 + (d - 1)
  let doe := yoe * 365 + yoe / 4 - yoe / 100 + doy
  (era : ℤ) * 146097 + (doe : ℤ) - 719468

/-- Microseconds since the epoch, offset-adjusted: the key under which
`datetime` instances of equal awareness compare. -/
def DateTime.instantKey (t : DateTime) : ℤ :=
  daysFromCivil t.year t.month t.day * 86400000000
    + (((t.hour * 3600 + t.minute * 60 + t.second) * 1000000 + t.usec : ℕ) : ℤ)
    - (t.tzMin.getD 0) * 60000000

/-- Python `a < b` on datetimes: defined only when both are naive or
both aware (mixing raises `TypeError`, modelled as `none`). -/
def dtLt (a b : DateTime) : Option Bool :=
  if a.tzMin.isSome = b.tzMin.isSome then some (decide (a.instantKey < b.instantKey))
  else none

/-- Exactly `n` leading digits. -/
def fixedDigits (n : ℕ) (cs : List Char) : Option (ℕ × List Char) :=
  let ds := cs.take n
  if ds.length = n ∧ ds.all isDigitC then some (digitsVal ds, cs.drop n) else none

/-- Require a literal character. -/
def expectChar (c : Char) : List Char → Option (List Char)
  | x :: t => if x = c then some t else none
  | [] => none

/-- Time-of-day tail after the two hour digits:
`[:MM[:SS[.f{1..6}]]]`, returning (minute, second, microsecond, rest). -/
def parseTimeTail (r : List Char) : Option (ℕ × ℕ × ℕ × List Char) :=
  match r with
  | ':' :: t => do
    let (mi, r1) ← fixedDigits 2 t
    match r1 with
    | ':' :: t2 => do
      let (se, r2) ← fixedDigits 2 t2
      match r2 with
      | '.' :: t3 =>
        let fd := t3.takeWhile isDigitC
        let rest := t3.dropWhile isDigitC
        if fd.isEmpty ∨ 6 < fd.length then none
        else some (mi, se, digitsVal fd * 10 ^ (6 - fd.length), rest)
      | _ => some (mi, se, 0, r2)
    | _ => some (mi, 0, 0, r1)
  | _ => some (0, 0, 0, r)

/-- Optional trailing UTC offset `[+-]HH:MM` (nothing ⇒ naive). -/
def parseOffset (r : List Char) : Option (Option ℤ) :=
  match r with
  | [] => some none
  | c :: t =>
    if c = '+' ∨ c = '-' then do
      let (oh, r1) ← fixedDigits 2 t
      let r2 ← expectChar ':' r1
      let (om, r3) ← fixedDigits 2 r2
      if ¬ r3.isEmpty ∨ ¬ (oh * 60 + om < 1440) then none
      else some (some ((if c = '-' then -1 else 1) * ((oh : ℤ) * 60 + (om : ℤ))))
    else none

/-- Model of the stdlib `datetime.fromisoformat`:
`YYYY-MM-DD[<sep>HH[:MM[:SS[.ffffff]]]][±HH:MM]` with field
validation; `none` where the library raises `ValueError`. -/
def fromisoChars (cs : List Char) : Option DateTime := do
  let (y, r) ← fixedDigits 4 cs
  let r ← expectChar '-' r
  let (mo, r) ← fixedDigits 2 r
  let r ← expectChar '-' r
  let (d, r) ← fixedDigits 2 r
  if ¬ (1 ≤ y ∧ 1 ≤ mo ∧ mo ≤ 12 ∧ 1 ≤ d ∧ d ≤ daysInMonth y mo) then none
  else
    match r with
    | [] => some ⟨y, mo, d, 0, 0, 0, 0, none⟩
    | _sep :: r1 => do
      let (h, r2) ← fixedDigits 2 r1
      let (mi, se, us, r3) ← parseTimeTail r2
      let tz ← parseOffset r3
      if ¬ (h ≤ 23 ∧ mi ≤ 59 ∧ se ≤ 59) then none
      else some ⟨y, mo, d, h, mi, se, us, tz⟩

/-- The `[+-]\d{2}:\d{2}$` suffix of the timestamp-normalizing regex:
splits off a trailing UTC-offset notation when present. -/
def tzSuffixSplit (cs : List Char) : Option (List Char × List Char) :=
  let n := cs.length
  if n < 6 then none
  else
    let body := cs.take (n - 6)
    let tz := cs.drop (n - 6)
    match tz with
    | [sg, a, b, col, c, d] =>
      if (sg = '+' ∨ sg = '-') ∧ col = ':' ∧ [a, b, c, d].all isDigitC
      then some (body, tz) else none
    | _ => none

/-- The optional `(\.\d+)?` group directly before the offset: a final
`.digits` suffix of the body (all characters after the last dot must be
digits, at least one). -/
def fracSuffixSplit (body : List Char) : Option (List Char × List Char) :=
  let rds := body.reverse.takeWhile isDigitC
  let rrest := body.reverse.dropWhile isDigitC
  match rrest with
  | '.' :: t => if rds.isEmpty then none else some (t.reverse, rds.reverse)
  | _ => none

/-- Fractional digits normalized to microseconds: right-pad with zeros
or truncate to exactly six digits. -/
def padTo6 (ds : List Char) : List Char :=
  (ds ++ List.replicate 6 '0').take 6

/-- The no-offset branch of `parse_iso_dt`: split at the first `.`, pad
or truncate the digit run after it to six digits, keep any tail. -/
def padFirstFrac (cs : List Char) : List Char :=
  let base := cs.takeWhile (fun c => c ≠ '.')
  let rest := cs.dropWhile (fun c => c ≠ '.')
  match rest with
  | '.' :: t =>
    let ds := t.takeWhile isDigitC
    let tail := t.dropWhile isDigitC
    if ds.isEmpty then cs
    else base ++ '.' :: padTo6 ds ++ tail
  | _ => cs

/-- Model of `parse_iso_dt` of collect_results.py: strip; reject empty; rewrite a
trailing `Z` to `+00:00`; when the string ends in a `±HH:MM` offset,
normalize the fractional-second digits directly before it to six;
otherwise normalize the digits after the first `.`; then parse with
`fromisoformat`.  `none` models the raised exception. -/
def parse_iso_dt (ts : String) : Option DateTime :=
  let s := stripChars ts.toList
  if s.isEmpty then none
  else
    let cs := if s.getLast? = some 'Z' then s.dropLast ++ "+00:00".toList else s
    match tzSuffixSplit cs with
    | some (body, tz) =>
      match fracSuffixSplit body with
      | some (base, ds) => fromisoChars (base ++ '.' :: padTo6 ds ++ tz)
      | none => fromisoChars (body ++ tz)
    | none => fromisoChars (padFirstFrac cs)

/-- One row of `docker_stats.csv` (missing cells modelled as `""`,
which the code's `or ""` guards produce from `None`). -/
structure DockerRow where
  ts : String
  container : String
  cpu_perc : String
  mem_usage : String
deriving DecidableEq, Repr

/-- The four windowed resource averages. -/
structure DockerAverages where
  postgis_cpu_avg_pct : Option ℚ
  geoserver_cpu_avg_pct : Option ℚ
  postgis_mem_avg_mib : Option ℚ
  geoserver_mem_avg_mib : Option ℚ
deriving DecidableEq, Repr

/-- Window set-up of `compute_docker_averages`: both endpoint strings
must be present (non-empty) and parse; any missing endpoint or parse
failure leaves the window unset (all samples retained). -/
def windowOf (start_iso end_iso : Option String) : Option (DateTime × DateTime) :=
  match start_iso, end_iso with
  | some s, some e =>
    match parse_iso_dt s, parse_iso_dt e with
    | some sd, some ed => some (sd, ed)
    | _, _ => none
  | _, _ => none

/-- The per-row body of the `compute_docker_averages` loop: `none` when
the row is skipped (untracked container, unparsable timestamp,
out-of-window, or a raising comparison), otherwise the normalized
container label with the row's parsed CPU and memory samples. -/
def dockerRowEntry (w : Option (DateTime × DateTime)) (row : DockerRow) :
    Option (String × Option ℚ × Option ℚ) :=
  let container := pyLower (pyStrip row.container)
  if container ≠ "postgis" ∧ container ≠ "geoserver" then none
  else
    match parse_iso_dt (pyStrip row.ts) with
    | none => none
    | some ts_dt =>
      let sample := some (container, parse_cpu_percent row.cpu_perc,
        parse_mem_usage_to_mib row.mem_usage)
      match w with
      | some (sd, ed) =>
        match dtLt ts_dt sd, dtLt ed ts_dt with
        | some b1, some b2 => if b1 ∨ b2 then none else sample
        | _, _ => none
      | none => sample

/-- The inner `avg`: arithmetic mean of the non-not-a-number samples,
not-a-number when there is none. -/
def avgQ (xs : List (Option ℚ)) : Option ℚ :=
  let ys := xs.filterMap id
  if ys.isEmpty then none else some (qDivNat (ys.foldl qAdd 0) ys.length)

/-- Model of `compute_docker_averages` of collect_results.py, applied to the
parsed rows of a readable `docker_stats.csv` (an unreadable file, which
returns all-not-a-number, is handled by the caller model). -/
def compute_docker_averages (rows : List DockerRow)
    (start_iso end_iso : Option String) : DockerAverages :=
  let w := windowOf start_iso end_iso
  let kept := rows.filterMap (dockerRowEntry w)
  let pg := kept.filter (fun e => e.1 = "postgis")
  let gs := kept.filter (fun e => e.1 = "geoserver")
  { postgis_cpu_avg_pct := avgQ (pg.map (fun e => e.2.1))
  , geoserver_cpu_avg_pct := avgQ (gs.map (fun e => e.2.1))
  , postgis_mem_avg_mib := avgQ (pg.map (fun e => e.2.2))
  , geoserver_mem_avg_mib := avgQ (gs.map (fun e => e.2.2)) }

/-- Python substring containment (`needle in hay`). -/
def hasSub : List Char → List Char → Bool
  | hay, needle =>
    if hay.take needle.length = needle then true
    else
      match hay with
      | [] => false
      | _ :: t => hasSub t needle

/-- Leftmost match: try a positional matcher at every suffix, earliest
position first — the search order of `re.search`. -/
def searchFirst {α : Type} (f : List Char → Option α) : List Char → Option α
  | [] => f []
  | c :: t =>
    match f (c :: t) with
    | some v => some v
    | none => searchFirst f t

/-- Positional match of `-r(\d+)-`: the greedy digit run must be
followed directly by a hyphen. -/
def matchRHyphen (cs : List Char) : Option ℕ :=
  match cs with
  | '-' :: 'r' :: t =>
    let ds := t.takeWhile isDigitC
    let rest := t.dropWhile isDigitC
    if ds.isEmpty then none
    else
      match rest with
      | '-' :: _ => some (digitsVal ds)
      | _ => none
  | _ => none

/-- Positional match of `<pre>([^-]+)-`: a literal prefix, then a
non-empty greedy run of non-hyphen characters, then a hyphen; yields
the captured token. -/
def matchTokenAfter (pre : List Char) (cs : List Char) : Option (List Char) :=
  if cs.take pre.length = pre then
    let t := cs.drop pre.length
    let tok := t.takeWhile (fun c => c ≠ '-')
    let rest := t.dropWhile (fun c => c ≠ '-')
    if tok.isEmpty then none
    else
      match rest with
      | '-' :: _ => some tok
      | _ => none
  else none

/-- Positional match of `-zipfs([0-9]+(?:\.[0-9]+)?)`: digits with an
optional decimal part, no trailing delimiter required. -/
def matchZipfs (cs : List Char) : Option ℚ :=
  if cs.take 6 = "-zipfs".toList then
    let t := cs.drop 6
    let d1 := t.takeWhile isDigitC
    if d1.isEmpty then none
    else
      let r1 := t.dropWhile isDigitC
      match r1 with
      | '.' :: t2 =>
        let d2 := t2.takeWhile isDigitC
        if d2.isEmpty then some (decValue 1 d1 [] 0)
        else some (decValue 1 d1 d2 0)
      | _ => some (decValue 1 d1 [] 0)
  else none

/-- The structured configuration descriptor derived from a bundle
directory name. -/
structure BundleMeta where
  scenario : String
  h3_res : ℤ
  ttl : String
  hot : String
  invalidation : String
  zipf_s_from_folder : Option ℚ
deriving DecidableEq, Repr

/-- Model of `parse_bundle_meta` of collect_results.py: scenario from the
hyphen-terminated name prefix (falling back to substring containment,
baseline checked first), resolution from `-r(\d+)-` (default 0),
ttl/hot/invalidation tokens from `-ttl([^-]+)-` / `-hot([^-]+)-` /
`-inv([^-]+)-` (default `""`), Zipf skew from
`-zipfs([0-9]+(?:\.[0-9]+)?)` (default not-a-number).  Total: no input
fails. -/
def parse_bundle_meta (bundle_name : String) : BundleMeta :=
  let name := pyStrip bundle_name
  let cs := name.toList
  let scenario :=
    if pyStartsWith name "baseline-" then "baseline"
    else if pyStartsWith name "cache-" then "cache"
    else if hasSub cs "baseline".toList then "baseline"
    else if hasSub cs "cache".toList then "cache"
    else "unknown"
  let h3_res : ℤ :=
    match searchFirst matchRHyphen cs with
    | some n => (n : ℤ)
    | none => 0
  let ttl :=
    match searchFirst (matchTokenAfter "-ttl".toList) cs with
    | some tok => String.mk tok
    | none => ""
  let hot :=
    match searchFirst (matchTokenAfter "-hot".toList) cs with
    | some tok => String.mk tok
    | none => ""
  let invalidation :=
    match searchFirst (matchTokenAfter "-inv".toList) cs with
    | some tok => String.mk tok
    | none => ""
  let zipf := searchFirst matchZipfs cs
  ⟨scenario, h3_res, ttl, hot, invalidation, zipf⟩

/-- Model of `parse_rep_int` of collect_results.py: `^rep(\d+)$`. -/
def parse_rep_int (rep_dir_name : String) : Option ℕ :=
  match rep_dir_name.toList with
  | 'r' :: 'e' :: 'p' :: t =>
    if t.isEmpty ∨ ¬ t.all isDigitC then none else some (digitsVal t)
  | _ => none

/-- A long-table row: the dict `{column: value}`.  Every declared
column is initialized to `""`, so the row is modelled as a total map
defaulting to `vStr ""`. -/
def Row : Type := String → PyVal

/-- Dict update `row[k] = v`. -/
def Row.set (r : Row) (k : String) (v : PyVal) : Row :=
  fun c => if c = k then v else r c

/-- Dict read `row.get(k, "")` (every queried key is a declared column,
present since initialization). -/
def Row.get (r : Row) (k : String) : PyVal := r k

/-- The initial row `{c: "" for c in RUNS_LONG_COLUMNS}`. -/
def emptyRow : Row := fun _ => PyVal.vStr ""

/-- A parsed Run Summary JSON object, as a key-unique association list. -/
abbrev Summary := List (String × PyVal)

/-- Dict lookup on a summary. -/
def lookupKey (s : Summary) (k : String) : Option PyVal :=
  (s.find? (fun p => p.1 = k)).map Prod.snd

/-- Python truthiness of a scalar (`bool(x)`). -/
def PyVal.truthy : PyVal → Bool
  | .vNone => false
  | .vStr s => ¬ s.isEmpty
  | .vInt n => n ≠ 0
  | .vFloat q => q ≠ some 0

/-- Python `str(x)` of a scalar.  The repr of a finite float is
approximated by the rational's string form; the pipeline only ever
stringifies strings here (metadata tokens and summary timestamps), and
a stringified number never parses as a timestamp in either rendering,
so the approximation is unobservable. -/
def PyVal.pyStr : PyVal → String
  | .vNone => "None"
  | .vStr s => s
  | .vInt n => toString n
  | .vFloat none => "nan"
  | .vFloat (some q) => toString q

/-- Python `str(x or "")`. -/
def pyStrOrEmpty (v : PyVal) : String :=
  if v.truthy then v.pyStr else ""

/-- Python `str(x or "") or None`. -/
def strOrNone (v : PyVal) : Option String :=
  let s := pyStrOrEmpty v
  if s = "" then none else some s

/-- The test `x in ("", None)`. -/
def isBlankOrNone (v : PyVal) : Bool :=
  v = PyVal.vStr "" ∨ v = PyVal.vNone

/-- The constant `RUNS_LONG_COLUMNS` of collect_results.py. -/
def RUNS_LONG_COLUMNS : List String :=
  [ "root_id", "bundle_name", "rep", "scenario", "h3_res", "ttl", "hot"
  , "invalidation", "zipf_s_from_folder", "start", "end", "duration_sec"
  , "total", "success", "errors", "throughput_rps", "target_rps"
  , "achieved_to_target_ratio", "missed_tokens", "max_backlog"
  , "token_buffer", "p50_ms", "p95_ms", "p99_ms", "concurrency", "zipf_s"
  , "zipf_v", "bboxes", "layer", "target", "seed", "postgis_cpu_avg_pct"
  , "geoserver_cpu_avg_pct", "postgis_mem_avg_mib", "geoserver_mem_avg_mib" ]

/-- The constant `RUNS_AGG_COLUMNS` of collect_results.py. -/
def RUNS_AGG_COLUMNS : List String :=
  [ "scenario", "h3_res", "zipf_s", "target_rps", "ttl", "hot"
  , "invalidation", "p50_ms_median", "p95_ms_median", "p99_ms_median"
  , "throughput_rps_median", "errors_sum", "postgis_cpu_avg_pct_median"
  , "geoserver_cpu_avg_pct_median", "postgis_mem_avg_mib_median"
  , "geoserver_mem_avg_mib_median", "n_reps" ]

/-- The summary fields copied verbatim into the long row when present. -/
def SUMMARY_COPY_KEYS : List String :=
  [ "start", "end", "duration_sec", "total", "success", "errors"
  , "throughput_rps", "target_rps", "achieved_to_target_ratio"
  , "missed_tokens", "max_backlog", "token_buffer", "p50_ms", "p95_ms"
  , "p99_ms", "concurrency", "zipf_s", "zipf_v", "bboxes", "layer"
  , "target", "seed" ]

/-- Derived `achieved_to_target_ratio` value:
`(thr / tgt) if (tgt and not isnan(tgt) and tgt != 0) else nan`. -/
def derivedRatio (thr tgt : Option ℚ) : Option ℚ :=
  match tgt with
  | some t => if t = 0 then none else thr.map (fun x => qDiv x t)
  | none => none

/-- Stage 1 of the Run Row Assembler: every column initialized to
`""`, then the identity and bundle-metadata overlays. -/
def baseRow (root_id bundle_name : String) (meta : BundleMeta) (rep_num : ℕ) : Row :=
  ((((((((emptyRow.set
    "root_id" (.vStr root_id)).set
    "bundle_name" (.vStr bundle_name)).set
    "rep" (.vInt rep_num)).set
    "scenario" (.vStr meta.scenario)).set
    "h3_res" (.vInt meta.h3_res)).set
    "ttl" (.vStr meta.ttl)).set
    "hot" (.vStr meta.hot)).set
    "invalidation" (.vStr meta.invalidation)).set
    "zipf_s_from_folder" (.vFloat meta.zipf_s_from_folder)

/-- Stage 2: overlay every summary field present in the summary
verbatim. -/
def overlaySummary (summary : Summary) (r : Row) : Row :=
  SUMMARY_COPY_KEYS.foldl
    (fun r k =>
      match lookupKey summary k with
      | some v => r.set k v
      | none => r) r

/-- Stage 3: the `achieved_to_target_ratio` fallback — recompute when
the current cell is blank or `None`. -/
def ratioStage (r : Row) : Row :=
  if isBlankOrNone (r.get "achieved_to_target_ratio") then
    r.set "achieved_to_target_ratio"
      (.vFloat (derivedRatio (safe_float (r.get "throughput_rps"))
        (safe_float (r.get "target_rps"))))
  else r

/-- Stage 4: the `zipf_s` fallback to the folder-derived skew. -/
def zipfStage (meta : BundleMeta) (r : Row) : Row :=
  if isBlankOrNone (r.get "zipf_s") then
    r.set "zipf_s" (.vFloat meta.zipf_s_from_folder)
  else r

/-- Stage 5: overlay the four windowed resource averages, the window
being the row's `start`/`end` cells. -/
def dockerStage (docker : List DockerRow) (r : Row) : Row :=
  let av := compute_docker_averages docker
    (strOrNone (r.get "start")) (strOrNone (r.get "end"))
  (((r.set
    "postgis_cpu_avg_pct" (.vFloat av.postgis_cpu_avg_pct)).set
    "geoserver_cpu_avg_pct" (.vFloat av.geoserver_cpu_avg_pct)).set
    "postgis_mem_avg_mib" (.vFloat av.postgis_mem_avg_mib)).set
    "geoserver_mem_avg_mib" (.vFloat av.geoserver_mem_avg_mib)

/-- The Run Row Assembler: the loop body of `collect_runs` after the
existence and parse checks, as the composition of its five sequential
stages. -/
def assembleRow (root_id bundle_name : String) (meta : BundleMeta)
    (rep_num : ℕ) (summary : Summary) (docker : List DockerRow) : Row :=
  dockerStage docker
    (zipfStage meta
      (ratioStage
        (overlaySummary summary (baseRow root_id bundle_name meta rep_num))))

/-- A candidate Replication directory entry.  `files` maps each JSON
file name present in the directory to its parse result (`none` =
exists but unreadable or invalid JSON); a name absent from `files`
models a missing file.  `hasDocker` is the existence of
`docker_stats.csv`, whose parsed rows are `dockerRows`. -/
structure RepEntry where
  name : String
  isDir : Bool
  files : List (String × Option Summary)
  hasDocker : Bool
  dockerRows : List DockerRow

/-- A directory entry of a Root (a configuration bundle when `isDir`). -/
structure BundleEntry where
  name : String
  isDir : Bool
  reps : List RepEntry

/-- A configured root directory. -/
structure RootDir where
  name : String
  exists_ : Bool
  isDir : Bool
  entries : List BundleEntry

/-- File lookup in a Replication directory. -/
def findFile (files : List (String × Option Summary)) (n : String) :
    Option (Option Summary) :=
  (files.find? (fun p => p.1 = n)).map Prod.snd

/-- Lexical sort of directory entries (`sorted(...)` on paths sharing a
parent sorts by entry name). -/
def sortByName {α : Type} (nameOf : α → String) (l : List α) : List α :=
  l.insertionSort (fun a b => nameOf a ≤ nameOf b)

/-- Per-replication step of `collect_runs`: `none` models every `skip`
(non-`rep<N>` name, missing `<scenario>_summary.json`, missing
`docker_stats.csv`, unreadable/invalid JSON, or a summary that parses
falsy, i.e. to the empty object). -/
def repRowOf (root_id bundle_name : String) (meta : BundleMeta)
    (rep : RepEntry) : Option Row :=
  match parse_rep_int rep.name with
  | none => none
  | some rep_num =>
    match findFile rep.files (meta.scenario ++ "_summary.json") with
    | none => none
    | some parsed =>
      if ¬ rep.hasDocker then none
      else
        match parsed with
        | none => none
        | some s =>
          if s.isEmpty then none
          else some (assembleRow root_id bundle_name meta rep_num s rep.dockerRows)

/-- Rows contributed by one Bundle: parse its name once, keep only the
`rep<N>` subdirectories (lexically ordered), assemble each. -/
def bundleRows (root_id : String) (b : BundleEntry) : List Row :=
  if ¬ b.isDir then []
  else
    let meta := parse_bundle_meta b.name
    let rep_dirs := b.reps.filter (fun r => r.isDir)
    (sortByName RepEntry.name rep_dirs).filterMap (repRowOf root_id b.name meta)

/-- Rows contributed by one Root: nothing if it does not exist or is
not a directory, otherwise its directory entries in lexical order. -/
def rootRows (root : RootDir) : List Row :=
  if ¬ root.exists_ ∨ ¬ root.isDir then []
  else ((sortByName BundleEntry.name root.entries).map (bundleRows root.name)).flatten

/-- Model of `collect_runs` of collect_results.py over the modelled corpus. -/
def collect_runs (roots : List RootDir) : List Row :=
  (roots.map rootRows).flatten

/-- Serialization of one cell: a not-a-number float becomes the literal
string `"nan"`, every other value is passed through unchanged. -/
def csvCell (v : PyVal) : PyVal :=
  match v with
  | .vFloat none => .vStr "nan"
  | x => x

/-- Model of `write_csv` of collect_results.py as a table of cell values: the
fixed column list as header, then one line per row restricted to
exactly those columns. -/
def write_csv (columns : List String) (rows : List Row) : List (List PyVal) :=
  (columns.map PyVal.vStr) :: rows.map (fun r => columns.map (fun c => csvCell (r.get c)))

/-- The grouping key tuple of `aggregate_runs`:
`(scenario, safe_int h3_res, safe_float zipf_s, safe_int target_rps,
str ttl, str hot, str invalidation)`.  The scenario component is the
raw row value. -/
abbrev GroupKey : Type :=
  PyVal × ℤ × Option ℚ × ℤ × String × String × String

instance : DecidableEq GroupKey :=
  @instDecidableEqProd _ _ inferInstance (@instDecidableEqProd _ _ inferInstance
    (@instDecidableEqProd _ _ inferInstance (@instDecidableEqProd _ _ inferInstance
      (@instDecidableEqProd _ _ inferInstance inferInstance))))

/-- The key of one long row. -/
def keyOf (r : Row) : GroupKey :=
  ( r.get "scenario"
  , safe_int (r.get "h3_res") 0
  , safe_float (r.get "zipf_s")
  , safe_int (r.get "target_rps") 0
  , pyStrOrEmpty (r.get "ttl")
  , pyStrOrEmpty (r.get "hot")
  , pyStrOrEmpty (r.get "invalidation") )

/-- Constructor rank, the outer component of the value order. -/
def PyVal.rank : PyVal → ℕ
  | .vNone => 0
  | .vStr _ => 1
  | .vInt _ => 2
  | .vFloat _ => 3

/-- String payload of a value. -/
def PyVal.strPart : PyVal → String
  | .vStr s => s
  | _ => ""

/-- Integer payload of a value. -/
def PyVal.intPart : PyVal → ℤ
  | .vInt n => n
  | _ => 0

/-- Optional rationals ordered with not-a-number at the bottom: a
total surrogate consulted only by the value-level sort, which is
exercised solely on finite skews (Python `<` never holds on a
not-a-number; object-precision comparison is `pyKeyLt` below). -/
def wb : Option ℚ → WithBot ℚ
  | none => ⊥
  | some q => (q : WithBot ℚ)

/-- Float payload of a value. -/
def PyVal.ratPart : PyVal → WithBot ℚ
  | .vFloat q => wb q
  | _ => ⊥

/-- Order encoding of a scalar value.  In the pipeline the scenario key
component is always a string, on which this agrees with Python's string
order; across constructors the code point is rank order (Python would
raise on such a comparison, which never occurs). -/
def PyVal.enc (v : PyVal) : ℕ ×ₗ (String ×ₗ (ℤ ×ₗ WithBot ℚ)) :=
  toLex (v.rank, toLex (v.strPart, toLex (v.intPart, v.ratPart)))

/-- Order encoding of a grouping key: the lexicographic tuple order of
Python's `sorted(groups.items(), key=...)`, with floats modelled as
rationals.  It is faithful on keys whose float position is finite, the
only regime in which the value-level sort is consulted; a not-a-number
position is totalized at the bottom, whereas Python's `<` on it is
never true (see `pyKeyLt`). -/
def keyEnc (k : GroupKey) : (ℕ ×ₗ (String ×ₗ (ℤ ×ₗ WithBot ℚ))) ×ₗ
    (ℤ ×ₗ (WithBot ℚ ×ₗ (ℤ ×ₗ (String ×ₗ (String ×ₗ String))))) :=
  toLex (k.1.enc, toLex (k.2.1, toLex (wb k.2.2.1,
    toLex (k.2.2.2.1, toLex (k.2.2.2.2.1, toLex (k.2.2.2.2.2.1, k.2.2.2.2.2.2))))))

/-- Key comparison used to sort the groups ascending. -/
def keyLeProp (a b : GroupKey) : Prop := keyEnc a ≤ keyEnc b

instance : DecidableRel keyLeProp :=
  fun a b => inferInstanceAs (Decidable (keyEnc a ≤ keyEnc b))

/-- One aggregated row. -/
structure AggRow where
  scenario : PyVal
  h3_res : ℤ
  zipf_s : Option ℚ
  target_rps : ℤ
  ttl : String
  hot : String
  invalidation : String
  p50_ms_median : Option ℚ
  p95_ms_median : Option ℚ
  p99_ms_median : Option ℚ
  throughput_rps_median : Option ℚ
  errors_sum : ℤ
  postgis_cpu_avg_pct_median : Option ℚ
  geoserver_cpu_avg_pct_median : Option ℚ
  postgis_mem_avg_mib_median : Option ℚ
  geoserver_mem_avg_mib_median : Option ℚ
  n_reps : ℕ
deriving DecidableEq, Repr

/-- The group-reduction body of `aggregate_runs`: key columns from the
key, medians ignoring not-a-number for the four throughput/latency
metrics and the four resource metrics, summed `errors` with default 0,
and the group's cardinality as `n_reps`. -/
def aggOne (k : GroupKey) (rs : List Row) : AggRow :=
  { scenario := k.1
  , h3_res := k.2.1
  , zipf_s := k.2.2.1
  , target_rps := k.2.2.2.1
  , ttl := k.2.2.2.2.1
  , hot := k.2.2.2.2.2.1
  , invalidation := k.2.2.2.2.2.2
  , p50_ms_median := median_ignore_nan (rs.map (fun r => r.get "p50_ms"))
  , p95_ms_median := median_ignore_nan (rs.map (fun r => r.get "p95_ms"))
  , p99_ms_median := median_ignore_nan (rs.map (fun r => r.get "p99_ms"))
  , throughput_rps_median := median_ignore_nan (rs.map (fun r => r.get "throughput_rps"))
  , errors_sum := (rs.map (fun r => safe_int (r.get "errors") 0)).sum
  , postgis_cpu_avg_pct_median := median_ignore_nan (rs.map (fun r => r.get "postgis_cpu_avg_pct"))
  , geoserver_cpu_avg_pct_median := median_ignore_nan (rs.map (fun r => r.get "geoserver_cpu_avg_pct"))
  , postgis_mem_avg_mib_median := median_ignore_nan (rs.map (fun r => r.get "postgis_mem_avg_mib"))
  , geoserver_mem_avg_mib_median := median_ignore_nan (rs.map (fun r => r.get "geoserver_mem_avg_mib"))
  , n_reps := rs.length }

/-- The distinct grouping keys of a long table (the key set of the
`defaultdict`) at value precision, where all not-a-number skews
coincide; the object-precision key set `objGroupKeys` below separates
them by object identity, as CPython dict keys do. -/
def groupKeys (rows : List Row) : List GroupKey :=
  (rows.map keyOf).dedup

/-- The rows of one group, in accumulation order (the `defaultdict`
list for that key), at value precision. -/
def groupRows (rows : List Row) (k : GroupKey) : List Row :=
  rows.filter (fun r => decide (keyOf r = k))

/-- Value-precision model of `aggregate_runs` of collect_results.py: group
the long rows by normalized key, reduce each group with `aggOne`, and
emit the groups sorted ascending by key.  Faithful while no
not-a-number reaches a grouping key — CPython compares not-a-number
dict keys by object identity — and proven to coincide there with the
object-precision model (`objAggregate_eq_finite`). -/
def aggregate_runs (rows : List Row) : List AggRow :=
  ((groupKeys rows).insertionSort keyLeProp).map (fun k => aggOne k (groupRows rows k))

/-- An aggregated row as a dict, as consumed by `write_csv`. -/
def AggRow.toRow (a : AggRow) : Row := fun c =>
  if c = "scenario" then a.scenario
  else if c = "h3_res" then .vInt a.h3_res
  else if c = "zipf_s" then .vFloat a.zipf_s
  else if c = "target_rps" then .vInt a.target_rps
  else if c = "ttl" then .vStr a.ttl
  else if c = "hot" then .vStr a.hot
  else if c = "invalidation" then .vStr a.invalidation
  else if c = "p50_ms_median" then .vFloat a.p50_ms_median
  else if c = "p95_ms_median" then .vFloat a.p95_ms_median
  else if c = "p99_ms_median" then .vFloat a.p99_ms_median
  else if c = "throughput_rps_median" then .vFloat a.throughput_rps_median
  else if c = "errors_sum" then .vInt a.errors_sum
  else if c = "postgis_cpu_avg_pct_median" then .vFloat a.postgis_cpu_avg_pct_median
  else if c = "geoserver_cpu_avg_pct_median" then .vFloat a.geoserver_cpu_avg_pct_median
  else if c = "postgis_mem_avg_mib_median" then .vFloat a.postgis_mem_avg_mib_median
  else if c = "geoserver_mem_avg_mib_median" then .vFloat a.geoserver_mem_avg_mib_median
  else if c = "n_reps" then .vInt a.n_reps
  else .vStr ""

/-- The grouping key recorded in an aggregated row. -/
def aggKeyOf (a : AggRow) : GroupKey :=
  (a.scenario, a.h3_res, a.zipf_s, a.target_rps, a.ttl, a.hot, a.invalidation)

/-- Normalized process label of a resource sample. -/
def trackedName (row : DockerRow) : String := pyLower (pyStrip row.container)

/-- Whether a sample belongs to one of the two tracked processes. -/
def isTracked (row : DockerRow) : Bool :=
  trackedName row = "postgis" ∨ trackedName row = "geoserver"

/-- The parsed sample values the averager accumulates for a kept row. -/
def sampleOf (row : DockerRow) : String × Option ℚ × Option ℚ :=
  (trackedName row, parse_cpu_percent row.cpu_perc, parse_mem_usage_to_mib row.mem_usage)

/-- Retention predicate with a parsed window: tracked process,
parsable timestamp, comparable to both endpoints, and inside the
inclusive `[start, end]` interval. -/
def keptByWindow (sd ed : DateTime) (row : DockerRow) : Bool :=
  isTracked row &&
    match parse_iso_dt (pyStrip row.ts) with
    | none => false
    | some t =>
      (t.tzMin.isSome = sd.tzMin.isSome) && (t.tzMin.isSome = ed.tzMin.isSome)
        && decide (sd.instantKey ≤ t.instantKey) && decide (t.instantKey ≤ ed.instantKey)

/-- Retention predicate without a window: tracked process with a
parsable timestamp. -/
def keptAlways (row : DockerRow) : Bool :=
  isTracked row && (parse_iso_dt (pyStrip row.ts)).isSome

/-- The value a summary-copied column holds after the overlay: the
summary's value when the key is present, otherwise the blank
initialization. -/
def summaryValueOr (s : Summary) (k : String) : PyVal :=
  (lookupKey s k).getD (.vStr "")

/-- A minimal long row used as concrete test data: scenario plus the
numeric and metric cells exercised by the aggregation claims. -/
def sampleLongRow (sc : String) (res tgt z p50 errs : PyVal) : Row :=
  (((((emptyRow.set "scenario" (.vStr sc)).set "h3_res" res).set
    "target_rps" tgt).set "zipf_s" z).set "p50_ms" p50).set "errors" errs

/-- The whole pipeline (`main` minus argument parsing and disk output):
collect the long table, write it, aggregate, write that; both tables
are always produced. -/
def run_pipeline (roots : List RootDir) : List (List PyVal) × List (List PyVal) :=
  let runs_long := collect_runs roots
  ( write_csv RUNS_LONG_COLUMNS runs_long
  , write_csv RUNS_AGG_COLUMNS ((aggregate_runs runs_long).map AggRow.toRow) )

/-! ### Object-precision aggregation

The definitions above model `aggregate_runs` at value precision, where
every not-a-number skew is the single abstract value `none`.  That
matches CPython only while no not-a-number reaches a grouping key:
distinct `float("nan")` objects are unequal as dict keys (`==` on them
is false and the identity shortcut of `PyObject_RichCompareBool` does
not apply) and incomparable under `<`.  The definitions below model
the same source lines (442-486) at object precision: each
not-a-number float in a skew cell carries the identity of the object
holding it, dict keys compare not-a-number skews by that identity, and
`sorted` becomes a stable insertion sort.  That sort agrees with
CPython both on totally comparable keys (the unique ascending order)
and on pairwise incomparable keys, where CPython's run detector sees
one non-descending run and preserves dict insertion order.  On inputs
mixing comparable and incomparable keys Python documents no behaviour
and no claim below touches that regime.  Theorem
`objAggregate_eq_finite` proves the two models coincide whenever every
skew coerces to a finite float. -/

/-- The skew component of a grouping key at object precision: a finite
float value, the not-a-number object already held in the cell, or a
not-a-number freshly allocated by the `safe_float` call for the row at
the given accumulation position. -/
inductive SkewKey where
  | num (q : ℚ)
  | obj (id : ℕ)
  | fresh (pos : ℕ)
deriving DecidableEq, Repr

/-- A long row together with the identity of the `float("nan")` object
held in its `zipf_s` cell, when that cell holds one.  CPython
allocates one such object per `float("nan")` call — one per bundle
directory in `parse_bundle_meta` — and `float(x)` returns a float
argument itself, so replications of one bundle share the object while
distinct parses (for example the same bundle name under two roots)
yield distinct objects.  `zipfObj = none` means the cell holds no
not-a-number float. -/
structure ObjRow where
  row : Row
  zipfObj : Option ℕ

/-- What `safe_float(r.get("zipf_s"))` computes at object precision
for the row at accumulation position `pos`: a held not-a-number object
is returned unchanged, a finite coercion gives its value, and a failed
coercion allocates a fresh not-a-number for this call. -/
def objSkewOf (pos : ℕ) (r : ObjRow) : SkewKey :=
  match r.zipfObj with
  | some id => .obj id
  | none =>
    match safe_float (r.row.get "zipf_s") with
    | some q => .num q
    | none => .fresh pos

/-- A grouping key at object precision. -/
abbrev ObjGroupKey : Type :=
  PyVal × ℤ × SkewKey × ℤ × String × String × String

instance : DecidableEq ObjGroupKey :=
  @instDecidableEqProd _ _ inferInstance (@instDecidableEqProd _ _ inferInstance
    (@instDecidableEqProd _ _ inferInstance (@instDecidableEqProd _ _ inferInstance
      (@instDecidableEqProd _ _ inferInstance inferInstance))))

/-- The grouping key of the row at accumulation position `pos` at
object precision; all components but the skew are the value-level
ones. -/
def keyOfObj (pos : ℕ) (r : ObjRow) : ObjGroupKey :=
  ( r.row.get "scenario"
  , safe_int (r.row.get "h3_res") 0
  , objSkewOf pos r
  , safe_int (r.row.get "target_rps") 0
  , pyStrOrEmpty (r.row.get "ttl")
  , pyStrOrEmpty (r.row.get "hot")
  , pyStrOrEmpty (r.row.get "invalidation") )

/-- The float value a skew key component prints as: not-a-number for
either kind of not-a-number object. -/
def SkewKey.val : SkewKey → Option ℚ
  | .num q => some q
  | .obj _ => none
  | .fresh _ => none

/-- The value-level key underlying an object-precision key. -/
def ObjGroupKey.val (k : ObjGroupKey) : GroupKey :=
  (k.1, k.2.1, k.2.2.1.val, k.2.2.2.1, k.2.2.2.2.1, k.2.2.2.2.2.1, k.2.2.2.2.2.2)

/-- Embedding of a value-level key into object precision, sending a
finite skew to its value and the abstract not-a-number to an arbitrary
fresh object; it is injective, inverts `ObjGroupKey.val`, and is only
ever applied on finite skews. -/
def liftKey (k : GroupKey) : ObjGroupKey :=
  ( k.1, k.2.1
  , match k.2.2.1 with
    | some q => .num q
    | none => .fresh 0
  , k.2.2.2.1, k.2.2.2.2.1, k.2.2.2.2.2.1, k.2.2.2.2.2.2 )

/-- Python `<` on two skew components: finite values compare by value,
any comparison against a not-a-number is false. -/
def skewLt : SkewKey → SkewKey → Bool
  | .num p, .num q => decide (p < q)
  | _, _ => false

/-- Python `<` on two key tuples, as `sorted` calls it: scan for the
first unequal component and compare there, false when all components
are equal.  Equality of a skew component follows CPython
`PyObject_RichCompareBool`: by value on finite floats and by object
identity on not-a-number objects.  The scenario comparison is the
total surrogate `PyVal.enc`, which agrees with Python on the
string-valued scenarios the pipeline produces. -/
def pyKeyLt (a b : ObjGroupKey) : Bool :=
  if a.1 = b.1 then
    if a.2.1 = b.2.1 then
      if a.2.2.1 = b.2.2.1 then
        if a.2.2.2.1 = b.2.2.2.1 then
          if a.2.2.2.2.1 = b.2.2.2.2.1 then
            if a.2.2.2.2.2.1 = b.2.2.2.2.2.1 then
              if a.2.2.2.2.2.2 = b.2.2.2.2.2.2 then false
              else decide (a.2.2.2.2.2.2 < b.2.2.2.2.2.2)
            else decide (a.2.2.2.2.2.1 < b.2.2.2.2.2.1)
          else decide (a.2.2.2.2.1 < b.2.2.2.2.1)
        else decide (a.2.2.2.1 < b.2.2.2.1)
      else skewLt a.2.2.1 b.2.2.1
    else decide (a.2.1 < b.2.1)
  else decide (a.1.enc < b.1.enc)

/-- The stable-sort relation derived from Python `<`: `a` may precede
`b` unless `b < a` holds strictly. -/
def pySortRel (a b : ObjGroupKey) : Prop := pyKeyLt b a = false

instance : DecidableRel pySortRel :=
  fun a b => inferInstanceAs (Decidable (pyKeyLt b a = false))

/-- First occurrences, skipping elements already seen. -/
def firstDedupAux {α : Type} [DecidableEq α] : List α → List α → List α
  | [], _ => []
  | a :: t, seen =>
    if a ∈ seen then firstDedupAux t seen else a :: firstDedupAux t (a :: seen)

/-- The distinct elements of a list in first-occurrence order: the key
order of a Python dict built by repeated insertion. -/
def firstDedup {α : Type} [DecidableEq α] (l : List α) : List α :=
  firstDedupAux l []

/-- The grouping keys of a long table at object precision, in dict
insertion order, each row keyed at its accumulation position. -/
def objGroupKeys (rows : List ObjRow) : List ObjGroupKey :=
  firstDedup (rows.enum.map (fun p => keyOfObj p.1 p.2))

/-- The rows of one object-precision group, in accumulation order. -/
def objGroupRows (rows : List ObjRow) (k : ObjGroupKey) : List ObjRow :=
  (rows.enum.filter (fun p => decide (keyOfObj p.1 p.2 = k))).map (fun p => p.2)

/-- The emitted key order: Python `sorted` on the dict keys, modelled
as a stable insertion sort over `pySortRel`. -/
def objAggKeys (rows : List ObjRow) : List ObjGroupKey :=
  (objGroupKeys rows).insertionSort pySortRel

/-- Object-precision model of `aggregate_runs` of collect_results.py:
group by the object-level key, emit in `sorted` order, and reduce each
group with `aggOne` at value level (medians, sums and counts never
depend on identities).  The emitted key columns hold the value of the
key, the not-a-number objects printing as `nan`. -/
def objAggregate_runs (rows : List ObjRow) : List AggRow :=
  (objAggKeys rows).map
    (fun k => aggOne k.val ((objGroupRows rows k).map (fun r => r.row)))

/-- An object-precision long row over the sample row: value cells plus
the identity of the not-a-number object in the skew cell, if any. -/
def sampleObjRow (sc : String) (res tgt z p50 errs : PyVal) (zid : Option ℕ) : ObjRow :=
  ⟨sampleLongRow sc res tgt z p50 errs, zid⟩

/-- Three replications of one logical configuration whose skew cells
hold not-a-number: the first two share one `float("nan")` object (two
replications of one bundle directory) and the third holds a distinct
one (the same bundle name under a second root). -/
def nanRowsSplit : List ObjRow :=
  [ sampleObjRow "cache" (.vInt 9) (.vInt 100) (.vFloat none) (.vInt 10) (.vInt 0) (some 0)
  , sampleObjRow "cache" (.vInt 9) (.vInt 100) (.vFloat none) (.vInt 20) (.vInt 0) (some 0)
  , sampleObjRow "cache" (.vInt 9) (.vInt 100) (.vFloat none) (.vInt 30) (.vInt 0) (some 1) ]

/-- Three configurations whose keys hold pairwise distinct
not-a-number skew objects, accumulated with targets 100, 100, 50. -/
def nanRowsOrder : List ObjRow :=
  [ sampleObjRow "cache" (.vInt 9) (.vInt 100) (.vFloat none) (.vInt 10) (.vInt 0) (some 0)
  , sampleObjRow "cache" (.vInt 9) (.vInt 100) (.vFloat none) (.vInt 20) (.vInt 0) (some 1)
  , sampleObjRow "cache" (.vInt 9) (.vInt 50) (.vFloat none) (.vInt 30) (.vInt 0) (some 2) ]

/-- The same three configurations accumulated in a rotated order. -/
def nanRowsOrderPerm : List ObjRow :=
  [ sampleObjRow "cache" (.vInt 9) (.vInt 50) (.vFloat none) (.vInt 30) (.vInt 0) (some 2)
  , sampleObjRow "cache" (.vInt 9) (.vInt 100) (.vFloat none) (.vInt 10) (.vInt 0) (some 0)
  , sampleObjRow "cache" (.vInt 9) (.vInt 100) (.vFloat none) (.vInt 20) (.vInt 0) (some 1) ]

/-! ## Helper lemmas -/

theorem sortRats_eq_of_perm {l l' : List ℚ} (h : l.Perm l') :
    sortRats l = sortRats l' := by
  have hs1 : List.Sorted (fun a b : ℚ => a ≤ b) (sortRats l) :=
    List.sorted_insertionSort _ l
  have hs2 : List.Sorted (fun a b : ℚ => a ≤ b) (sortRats l') :=
    List.sorted_insertionSort _ l'
  have hp : (sortRats l).Perm (sortRats l') :=
    ((List.perm_insertionSort _ l).trans h).trans (List.perm_insertionSort _ l').symm
  exact List.eq_of_perm_of_sorted hp hs1 hs2

theorem median_eq_of_perm {l l' : List ℚ} (h : l.Perm l') :
    median l = median l' := by
  simp only [median, sortRats_eq_of_perm h]

theorem median_ignore_nan_eq_of_perm {l l' : List PyVal} (h : l.Perm l') :
    median_ignore_nan l = median_ignore_nan l' := by
  have hp : (l.filterMap safe_float).Perm (l'.filterMap safe_float) :=
    h.filterMap _
  simp only [median_ignore_nan, List.isEmpty_iff_length_eq_zero, hp.length_eq,
    median_eq_of_perm hp]

theorem aggOne_eq_of_perm {k : GroupKey} {rs rs' : List Row} (h : rs.Perm rs') :
    aggOne k rs = aggOne k rs' := by
  simp only [aggOne,
    median_ignore_nan_eq_of_perm (h.map (fun r => r.get "p50_ms")),
    median_ignore_nan_eq_of_perm (h.map (fun r => r.get "p95_ms")),
    median_ignore_nan_eq_of_perm (h.map (fun r => r.get "p99_ms")),
    median_ignore_nan_eq_of_perm (h.map (fun r => r.get "throughput_rps")),
    median_ignore_nan_eq_of_perm (h.map (fun r => r.get "postgis_cpu_avg_pct")),
    median_ignore_nan_eq_of_perm (h.map (fun r => r.get "geoserver_cpu_avg_pct")),
    median_ignore_nan_eq_of_perm (h.map (fun r => r.get "postgis_mem_avg_mib")),
    median_ignore_nan_eq_of_perm (h.map (fun r => r.get "geoserver_mem_avg_mib")),
    (h.map (fun r => safe_int (r.get "errors") 0)).sum_eq, h.length_eq]

theorem wb_inj : Function.Injective wb := by
  intro a b hab
  cases a <;> cases b <;> simp_all [wb]

theorem pyValEnc_inj : Function.Injective PyVal.enc := by
  intro a b hab
  cases a <;> cases b <;>
    simp [PyVal.enc, PyVal.rank, PyVal.strPart, PyVal.intPart, PyVal.ratPart,
      Prod.ext_iff] at hab ⊢ <;>
    first
      | rfl
      | exact hab
      | exact wb_inj hab

theorem keyEnc_inj : Function.Injective keyEnc := by
  intro a b hab
  obtain ⟨a1, a2, a3, a4, a5, a6, a7⟩ := a
  obtain ⟨b1, b2, b3, b4, b5, b6, b7⟩ := b
  simp only [keyEnc, toLex_inj, Prod.mk.injEq] at hab
  obtain ⟨h1, h2, h3, h4, h5, h6, h7⟩ := hab
  have e1 : a1 = b1 := pyValEnc_inj h1
  have e3 : a3 = b3 := wb_inj h3
  subst e1 e3 h2 h4 h5 h6 h7
  rfl

instance : IsTrans GroupKey keyLeProp :=
  ⟨fun _ _ _ h1 h2 => le_trans h1 h2⟩

instance : IsTotal GroupKey keyLeProp :=
  ⟨fun a b => le_total (keyEnc a) (keyEnc b)⟩

instance : IsAntisymm GroupKey keyLeProp :=
  ⟨fun _ _ h1 h2 => keyEnc_inj (le_antisymm h1 h2)⟩

theorem firstDedupAux_mem {α : Type} [DecidableEq α] (a : α) (l : List α) :
    ∀ seen : List α, (a ∈ firstDedupAux l seen ↔ a ∈ l ∧ a ∉ seen) := by
  induction l with
  | nil => intro seen; simp [firstDedupAux]
  | cons b t ih =>
    intro seen
    by_cases hb : b ∈ seen
    · rw [firstDedupAux, if_pos hb, ih]
      by_cases hab : a = b
      · subst hab; simp [hb]
      · simp [List.mem_cons, hab]
    · rw [firstDedupAux, if_neg hb]
      by_cases hab : a = b
      · subst hab; simp [List.mem_cons, hb]
      · simp only [List.mem_cons, hab, false_or]
        rw [ih]
        simp [List.mem_cons, hab]

theorem firstDedup_mem {α : Type} [DecidableEq α] (a : α) (l : List α) :
    a ∈ firstDedup l ↔ a ∈ l := by
  rw [firstDedup, firstDedupAux_mem]
  simp

theorem firstDedupAux_nodup {α : Type} [DecidableEq α] (l : List α) :
    ∀ seen : List α, (firstDedupAux l seen).Nodup := by
  induction l with
  | nil => intro seen; simp [firstDedupAux]
  | cons b t ih =>
    intro seen
    by_cases hb : b ∈ seen
    · rw [firstDedupAux, if_pos hb]; exact ih seen
    · rw [firstDedupAux, if_neg hb]
      refine List.nodup_cons.mpr ⟨?_, ih _⟩
      intro hmem
      exact ((firstDedupAux_mem b t _).mp hmem).2 (List.mem_cons_self _ _)

theorem firstDedup_nodup {α : Type} [DecidableEq α] (l : List α) :
    (firstDedup l).Nodup := firstDedupAux_nodup l []

theorem firstDedup_perm_dedup {α : Type} [DecidableEq α] (l : List α) :
    (firstDedup l).Perm l.dedup := by
  refine (List.perm_ext_iff_of_nodup (firstDedup_nodup l) (List.nodup_dedup l)).mpr ?_
  intro a
  rw [firstDedup_mem, List.mem_dedup]

theorem firstDedupAux_map {α β : Type} [DecidableEq α] [DecidableEq β]
    {f : α → β} (hf : Function.Injective f) (l : List α) :
    ∀ seen : List α,
      firstDedupAux (l.map f) (seen.map f) = (firstDedupAux l seen).map f := by
  induction l with
  | nil => intro seen; simp [firstDedupAux]
  | cons b t ih =>
    intro seen
    by_cases hb : b ∈ seen
    · rw [List.map_cons, firstDedupAux, if_pos (List.mem_map_of_mem f hb),
        firstDedupAux, if_pos hb, ih]
    · have hfb : f b ∉ seen.map f := by
        intro hc
        obtain ⟨x, hx, he⟩ := List.mem_map.mp hc
        exact hb ((hf he) ▸ hx)
      rw [List.map_cons, firstDedupAux, if_neg hfb, firstDedupAux, if_neg hb,
        List.map_cons, ← ih (b :: seen)]
      rfl

theorem firstDedup_map {α β : Type} [DecidableEq α] [DecidableEq β]
    {f : α → β} (hf : Function.Injective f) (l : List α) :
    firstDedup (l.map f) = (firstDedup l).map f :=
  firstDedupAux_map hf l []

theorem liftKey_inj : Function.Injective liftKey := by
  intro a b hab
  obtain ⟨a1, a2, a3, a4, a5, a6, a7⟩ := a
  obtain ⟨b1, b2, b3, b4, b5, b6, b7⟩ := b
  simp only [liftKey, Prod.mk.injEq] at hab
  obtain ⟨h1, h2, h3, h4, h5, h6, h7⟩ := hab
  subst h1 h2 h4 h5 h6 h7
  have e3 : a3 = b3 := by
    cases a3 <;> cases b3 <;> simp_all
  subst e3
  rfl

theorem val_liftKey (k : GroupKey) : (liftKey k).val = k := by
  obtain ⟨k1, k2, k3, k4, k5, k6, k7⟩ := k
  cases k3 <;> rfl

theorem objSkewOf_num {pos : ℕ} {r : ObjRow} {q : ℚ}
    (h : objSkewOf pos r = .num q) :
    r.zipfObj = none ∧ safe_float (r.row.get "zipf_s") = some q := by
  cases hz : r.zipfObj with
  | some id => simp [objSkewOf, hz] at h
  | none =>
    cases hs : safe_float (r.row.get "zipf_s") with
    | some p =>
      simp only [objSkewOf, hz, hs] at h
      have hpq : p = q := by injection h
      subst hpq
      exact ⟨rfl, rfl⟩
    | none => simp [objSkewOf, hz, hs] at h

theorem keyOfObj_finite (pos : ℕ) (r : ObjRow) (hz : r.zipfObj = none)
    (hq : (safe_float (r.row.get "zipf_s")).isSome) :
    keyOfObj pos r = liftKey (keyOf r.row) := by
  obtain ⟨q, hq'⟩ := Option.isSome_iff_exists.mp hq
  simp [keyOfObj, objSkewOf, liftKey, keyOf, hz, hq']

theorem keyOfObj_num {pos : ℕ} {r : ObjRow} {q : ℚ}
    (h : objSkewOf pos r = .num q) :
    keyOfObj pos r = liftKey (keyOf r.row) := by
  obtain ⟨hz, hs⟩ := objSkewOf_num h
  exact keyOfObj_finite pos r hz (by rw [hs]; rfl)

theorem enumFrom_keys_finite :
    ∀ (rows : List ObjRow),
      (∀ r ∈ rows, r.zipfObj = none ∧ (safe_float (r.row.get "zipf_s")).isSome) →
      ∀ n : ℕ, (List.enumFrom n rows).map (fun p => keyOfObj p.1 p.2)
        = rows.map (fun r => liftKey (keyOf r.row))
  | [], _, _ => rfl
  | r :: t, hfin, n => by
    simp only [List.enumFrom, List.map_cons]
    rw [keyOfObj_finite n r (hfin r (List.mem_cons_self _ _)).1
        (hfin r (List.mem_cons_self _ _)).2,
      enumFrom_keys_finite t (fun x hx => hfin x (List.mem_cons_of_mem _ hx)) (n + 1)]

theorem enumFrom_groupRows_finite :
    ∀ (rows : List ObjRow),
      (∀ r ∈ rows, r.zipfObj = none ∧ (safe_float (r.row.get "zipf_s")).isSome) →
      ∀ (n : ℕ) (k : GroupKey),
        ((List.enumFrom n rows).filter
            (fun p => decide (keyOfObj p.1 p.2 = liftKey k))).map (fun p => p.2.row)
          = (rows.map (fun r => r.row)).filter (fun r => decide (keyOf r = k))
  | [], _, _, _ => rfl
  | r :: t, hfin, n, k => by
    have hr := hfin r (List.mem_cons_self _ _)
    have hkey : keyOfObj n r = liftKey (keyOf r.row) := keyOfObj_finite n r hr.1 hr.2
    have ih := enumFrom_groupRows_finite t
      (fun x hx => hfin x (List.mem_cons_of_mem _ hx)) (n + 1) k
    simp only [List.enumFrom, List.map_cons, List.filter_cons, hkey]
    by_cases he : keyOf r.row = k
    · simp [he, ih]
    · have hne : liftKey (keyOf r.row) ≠ liftKey k := fun hc => he (liftKey_inj hc)
      simp [hne, he, ih]

theorem orderedInsert_map_rel {α β : Type} (r : α → α → Prop) (s : β → β → Prop)
    [DecidableRel r] [DecidableRel s] (f : α → β) (a : α) :
    ∀ l : List α, (∀ b ∈ l, (s (f a) (f b) ↔ r a b)) →
      List.orderedInsert s (f a) (l.map f) = (List.orderedInsert r a l).map f
  | [], _ => rfl
  | b :: t, h => by
    simp only [List.map_cons, List.orderedInsert]
    by_cases hr : r a b
    · rw [if_pos ((h b (List.mem_cons_self _ _)).mpr hr), if_pos hr, List.map_cons]
      rfl
    · rw [if_neg (fun hc => hr ((h b (List.mem_cons_self _ _)).mp hc)), if_neg hr,
        List.map_cons, orderedInsert_map_rel r s f a t
          (fun x hx => h x (List.mem_cons_of_mem _ hx))]

theorem insertionSort_map_rel {α β : Type} (r : α → α → Prop) (s : β → β → Prop)
    [DecidableRel r] [DecidableRel s] (f : α → β) :
    ∀ l : List α, (∀ a ∈ l, ∀ b ∈ l, (s (f a) (f b) ↔ r a b)) →
      List.insertionSort s (l.map f) = (List.insertionSort r l).map f
  | [], _ => rfl
  | a :: t, h => by
    simp only [List.map_cons, List.insertionSort]
    rw [insertionSort_map_rel r s f t
      (fun x hx y hy => h x (List.mem_cons_of_mem _ hx) y (List.mem_cons_of_mem _ hy))]
    exact orderedInsert_map_rel r s f a (List.insertionSort r t)
      (fun b hb => h a (List.mem_cons_self _ _) b
        (List.mem_cons_of_mem _ ((List.perm_insertionSort r t).mem_iff.mp hb)))

theorem pyKeyLt_lift (a b : GroupKey) (qa qb : ℚ)
    (ha : a.2.2.1 = some qa) (hb : b.2.2.1 = some qb) :
    (pyKeyLt (liftKey a) (liftKey b) = true) ↔ keyEnc a < keyEnc b := by
  obtain ⟨a1, a2, a3, a4, a5, a6, a7⟩ := a
  obtain ⟨b1, b2, b3, b4, b5, b6, b7⟩ := b
  simp only at ha hb
  subst ha hb
  simp only [pyKeyLt, liftKey, keyEnc, skewLt, wb, Prod.Lex.lt_iff,
    decide_eq_true_eq, WithBot.coe_lt_coe, WithBot.coe_eq_coe]
  by_cases e1 : a1 = b1
  · subst e1
    by_cases e2 : a2 = b2
    · subst e2
      by_cases e3 : qa = qb
      · subst e3
        by_cases e4 : a4 = b4
        · subst e4
          by_cases e5 : a5 = b5
          · subst e5
            by_cases e6 : a6 = b6
            · subst e6
              by_cases e7 : a7 = b7
              · subst e7; simp
              · simp [e7]
            · simp [e6]
          · simp [e5]
        · simp [e4]
      · simp [e3]
    · simp [e2]
  · have hne : a1.enc ≠ b1.enc := fun he => e1 (pyValEnc_inj he)
    simp [e1, hne]

theorem pySortRel_lift (a b : GroupKey) (qa qb : ℚ)
    (ha : a.2.2.1 = some qa) (hb : b.2.2.1 = some qb) :
    pySortRel (liftKey a) (liftKey b) ↔ keyLeProp a b := by
  rw [pySortRel, keyLeProp, ← not_lt, ← pyKeyLt_lift b a qb qa hb ha]
  simp [Bool.not_eq_true]

theorem dedup_skew_some {rows : List ObjRow}
    (hfin : ∀ r ∈ rows, r.zipfObj = none ∧ (safe_float (r.row.get "zipf_s")).isSome)
    {k : GroupKey} (hk : k ∈ ((rows.map (fun r => r.row)).map keyOf).dedup) :
    ∃ q, k.2.2.1 = some q := by
  rw [List.mem_dedup] at hk
  obtain ⟨v, hv, hkv⟩ := List.mem_map.mp hk
  obtain ⟨r, hr, hvr⟩ := List.mem_map.mp hv
  subst hkv
  subst hvr
  obtain ⟨q, hq⟩ := Option.isSome_iff_exists.mp (hfin r hr).2
  exact ⟨q, hq⟩

/-- On a table whose skews all coerce to finite floats, the
object-precision key emission order equals the value-level one,
embedded by `liftKey`. -/
theorem objAggKeys_eq_finite (rows : List ObjRow)
    (hfin : ∀ r ∈ rows, r.zipfObj = none ∧ (safe_float (r.row.get "zipf_s")).isSome) :
    objAggKeys rows
      = ((((rows.map (fun r => r.row)).map keyOf).dedup).insertionSort keyLeProp).map
          liftKey := by
  have hkeys : rows.enum.map (fun p => keyOfObj p.1 p.2)
      = ((rows.map (fun r => r.row)).map keyOf).map liftKey := by
    have h0 : rows.enum.map (fun p => keyOfObj p.1 p.2)
        = rows.map (fun r => liftKey (keyOf r.row)) := enumFrom_keys_finite rows hfin 0
    rw [h0, List.map_map, List.map_map]
    rfl
  rw [objAggKeys, objGroupKeys, hkeys, firstDedup_map liftKey_inj]
  have hsome : ∀ k ∈ firstDedup ((rows.map (fun r => r.row)).map keyOf),
      ∃ q, k.2.2.1 = some q := fun k hk =>
    dedup_skew_some hfin (List.mem_dedup.mpr ((firstDedup_mem k _).mp hk))
  rw [insertionSort_map_rel keyLeProp pySortRel liftKey _
    (fun a ha b hb => by
      obtain ⟨qa, hqa⟩ := hsome a ha
      obtain ⟨qb, hqb⟩ := hsome b hb
      exact pySortRel_lift a b qa qb hqa hqb)]
  have hsorteq : List.insertionSort keyLeProp
        (firstDedup ((rows.map (fun r => r.row)).map keyOf))
      = List.insertionSort keyLeProp
        (((rows.map (fun r => r.row)).map keyOf).dedup) := by
    refine List.eq_of_perm_of_sorted ?_
      (List.sorted_insertionSort _ _) (List.sorted_insertionSort _ _)
    exact ((List.perm_insertionSort _ _).trans (firstDedup_perm_dedup _)).trans
      (List.perm_insertionSort _ _).symm
  rw [hsorteq]

/-- On a table whose skews all coerce to finite floats, the
object-precision aggregation coincides with the value-level one:
keys, dict order, sort order, groups and reductions all agree. -/
theorem objAggregate_eq_finite (rows : List ObjRow)
    (hfin : ∀ r ∈ rows, r.zipfObj = none ∧ (safe_float (r.row.get "zipf_s")).isSome) :
    objAggregate_runs rows = aggregate_runs (rows.map (fun r => r.row)) := by
  rw [objAggregate_runs, objAggKeys_eq_finite rows hfin, aggregate_runs, groupKeys,
    List.map_map]
  refine List.map_congr_left fun k _ => ?_
  have hgroup : (objGroupRows rows (liftKey k)).map (fun r => r.row)
      = (rows.map (fun r => r.row)).filter (fun r => decide (keyOf r = k)) := by
    have h0 := enumFrom_groupRows_finite rows hfin 0 k
    rw [objGroupRows, List.map_map]
    exact h0
  show aggOne (liftKey k).val ((objGroupRows rows (liftKey k)).map (fun r => r.row))
      = aggOne k (groupRows (rows.map (fun r => r.row)) k)
  rw [val_liftKey, hgroup, groupRows]

/-- The sorted key list underlying the aggregation. -/
theorem aggregate_runs_map_key (rows : List Row) :
    (aggregate_runs rows).map aggKeyOf = (groupKeys rows).insertionSort keyLeProp := by
  simp only [aggregate_runs, List.map_map]
  have hid : (aggKeyOf ∘ fun k => aggOne k (groupRows rows k)) = id := by
    funext k
    rfl
  rw [hid, List.map_id]

theorem aggregate_runs_eq_of_perm {rows rows' : List Row} (h : rows.Perm rows') :
    aggregate_runs rows = aggregate_runs rows' := by
  have hkeys : (groupKeys rows).Perm (groupKeys rows') := (h.map keyOf).dedup
  have hsorted :
      (groupKeys rows).insertionSort keyLeProp
        = (groupKeys rows').insertionSort keyLeProp := by
    have hp : ((groupKeys rows).insertionSort keyLeProp).Perm
        ((groupKeys rows').insertionSort keyLeProp) :=
      ((List.perm_insertionSort _ _).trans hkeys).trans
        (List.perm_insertionSort _ _).symm
    exact List.eq_of_perm_of_sorted hp
      (List.sorted_insertionSort _ _) (List.sorted_insertionSort _ _)
  simp only [aggregate_runs, hsorted]
  refine List.map_congr_left fun k _ => ?_
  exact aggOne_eq_of_perm (h.filter _)

theorem qAdd_eq (a b : ℚ) : qAdd a b = a + b := by
  have ha : ((a.den : ℚ)) ≠ 0 := by
    exact_mod_cast a.den_nz
  have hb : ((b.den : ℚ)) ≠ 0 := by
    exact_mod_cast b.den_nz
  conv_rhs => rw [← Rat.num_div_den a, ← Rat.num_div_den b]
  rw [div_add_div _ _ ha hb, qAdd, Rat.mkRat_eq_div]
  push_cast
  ring_nf

theorem qDivNat_eq (q : ℚ) (n : ℕ) : qDivNat q n = q / n := by
  rcases Nat.eq_zero_or_pos n with hn | hn
  · subst hn
    simp [qDivNat, Rat.mkRat_eq_div]
  · have hq : ((q.den : ℚ)) ≠ 0 := by
      exact_mod_cast q.den_nz
    have hn' : ((n : ℚ)) ≠ 0 := by
      exact_mod_cast Nat.pos_iff_ne_zero.mp hn
    conv_rhs => rw [← Rat.num_div_den q]
    rw [qDivNat, Rat.mkRat_eq_div, div_div]
    push_cast
    ring_nf

theorem qMulNat_eq (q : ℚ) (n : ℕ) : qMulNat q n = q * n := by
  have hq : ((q.den : ℚ)) ≠ 0 := by
    exact_mod_cast q.den_nz
  conv_rhs => rw [← Rat.num_div_den q]
  rw [qMulNat, Rat.mkRat_eq_div]
  push_cast
  field_simp

theorem qMulDivNat_eq (q : ℚ) (m n : ℕ) : qMulDivNat q m n = q * m / n := by
  rcases Nat.eq_zero_or_pos n with hn | hn
  · subst hn
    simp [qMulDivNat, Rat.mkRat_eq_div]
  · have hq : ((q.den : ℚ)) ≠ 0 := by
      exact_mod_cast q.den_nz
    have hn' : ((n : ℚ)) ≠ 0 := by
      exact_mod_cast Nat.pos_iff_ne_zero.mp hn
    conv_rhs => rw [← Rat.num_div_den q]
    rw [qMulDivNat, Rat.mkRat_eq_div]
    push_cast
    field_simp

theorem qDiv_eq (a b : ℚ) : qDiv a b = a / b := by
  rcases eq_or_ne b 0 with hb | hb
  · subst hb
    simp [qDiv, Rat.divInt_eq_div]
  · have hbn : (b.num : ℚ) ≠ 0 := by
      simpa [Rat.num_eq_zero] using hb
    have ha : ((a.den : ℚ)) ≠ 0 := by
      exact_mod_cast a.den_nz
    have hbd : ((b.den : ℚ)) ≠ 0 := by
      exact_mod_cast b.den_nz
    conv_rhs => rw [← Rat.num_div_den a, ← Rat.num_div_den b]
    rw [qDiv, Rat.divInt_eq_div]
    push_cast
    field_simp

theorem foldl_qAdd_eq_sum (l : List ℚ) (init : ℚ) :
    l.foldl qAdd init = init + l.sum := by
  induction l generalizing init with
  | nil => simp
  | cons x t ih =>
    simp [List.foldl_cons, qAdd_eq, ih, add_assoc]

theorem avgQ_eq (xs : List (Option ℚ)) :
    avgQ xs =
      (let ys := xs.filterMap id
       if ys.isEmpty then none else some (ys.sum / (ys.length : ℚ))) := by
  simp only [avgQ, foldl_qAdd_eq_sum, zero_add, qDivNat_eq]

theorem Row.get_set_same (r : Row) (k : String) (v : PyVal) :
    (r.set k v).get k = v := by
  simp [Row.set, Row.get]

theorem Row.get_set_ne (r : Row) (k c : String) (v : PyVal) (h : c ≠ k) :
    (r.set k v).get c = r.get c := by
  simp [Row.set, Row.get, h]

/-- The summary-overlay fold leaves keys outside the list unchanged. -/
theorem foldl_copy_get_of_not_mem (s : Summary) (keys : List String) (r : Row)
    (c : String) (h : c ∉ keys) :
    (keys.foldl
      (fun r k =>
        match lookupKey s k with
        | some v => r.set k v
        | none => r) r).get c = r.get c := by
  induction keys generalizing r with
  | nil => rfl
  | cons k t ih =>
    have hck : c ≠ k := fun hc => h (hc ▸ List.mem_cons_self k t)
    have hct : c ∉ t := fun hc => h (List.mem_cons_of_mem _ hc)
    cases hl : lookupKey s k with
    | none => simpa [List.foldl_cons, hl] using ih _ hct
    | some v =>
      simpa [List.foldl_cons, hl, Row.get_set_ne _ _ _ _ hck] using
        ih (r.set k v) hct

/-- The summary-overlay fold writes each listed key once: afterwards the
key holds the summary's value when present, the prior value otherwise. -/
theorem foldl_copy_get_of_mem (s : Summary) (keys : List String) (r : Row)
    (c : String) (hmem : c ∈ keys) (hnd : keys.Nodup) :
    (keys.foldl
      (fun r k =>
        match lookupKey s k with
        | some v => r.set k v
        | none => r) r).get c = (lookupKey s c).getD (r.get c) := by
  induction keys generalizing r with
  | nil => cases hmem
  | cons k t ih =>
    rcases List.mem_cons.mp hmem with hck | hct
    · subst hck
      have hct : c ∉ t := (List.nodup_cons.mp hnd).1
      cases hl : lookupKey s c with
      | none =>
        simpa [List.foldl_cons, hl] using
          foldl_copy_get_of_not_mem s t r c hct
      | some v =>
        have := foldl_copy_get_of_not_mem s t (r.set c v) c hct
        simpa [List.foldl_cons, hl, Row.get_set_same] using this
    · have hnd' : t.Nodup := (List.nodup_cons.mp hnd).2
      cases hl : lookupKey s k with
      | none => simpa [List.foldl_cons, hl] using ih _ hct hnd'
      | some v =>
        have hck : c ≠ k := by
          intro hc
          exact (List.nodup_cons.mp hnd).1 (hc ▸ hct)
        simpa [List.foldl_cons, hl, Row.get_set_ne _ _ _ _ hck] using
          ih (r.set k v) hct hnd'

theorem pyStartsWith_iff (s pre : String) :
    pyStartsWith s pre = true ↔ pre.toList <+: s.toList := by
  rw [pyStartsWith, decide_eq_true_iff, List.prefix_iff_eq_take]
  exact eq_comm

theorem baseline_cache_prefixes_exclusive (s : String) :
    pyStartsWith s "baseline-" = true → pyStartsWith s "cache-" = true → False := by
  intro h1 h2
  rcases List.prefix_or_prefix_of_prefix
      ((pyStartsWith_iff s "baseline-").mp h1)
      ((pyStartsWith_iff s "cache-").mp h2) with h | h
  · exact absurd h (by decide)
  · exact absurd h (by decide)

theorem truncQ_of_nonneg (q : ℚ) (h : 0 ≤ q) : truncQ q = ⌊q⌋ := by
  rw [truncQ, Rat.floor_def]
  exact Int.tdiv_eq_ediv (Rat.num_nonneg.mpr h) (Int.natCast_nonneg _)

theorem truncQ_of_neg (q : ℚ) (h : q < 0) : truncQ q = -⌊-q⌋ := by
  have hstep : truncQ q = -truncQ (-q) := by
    rw [truncQ, truncQ, Rat.neg_num, Rat.neg_den, Int.neg_tdiv, neg_neg]
  rw [hstep, truncQ_of_nonneg (-q) (by linarith)]

/-! ## Claim theorems -/

/-- C7 (amended): the aggregated table `runs_agg.csv` has a fixed
17-column schema — seven grouping key columns, the four
latency/throughput medians, one summed metric, four resource medians,
and `n_reps` — declared in advance (`RUNS_AGG_COLUMNS`) and emitted as
such by the writer on every input: the header is always exactly that
column list and every data line has exactly those 17 cells, whatever
the rows contain. -/
theorem runs_agg_schema_fixed :
    RUNS_AGG_COLUMNS.length = 17
  ∧ RUNS_AGG_COLUMNS
      = ["scenario", "h3_res", "zipf_s", "target_rps", "ttl", "hot", "invalidation"]
        ++ ["p50_ms_median", "p95_ms_median", "p99_ms_median", "throughput_rps_median"]
        ++ ["errors_sum"]
        ++ ["postgis_cpu_avg_pct_median", "geoserver_cpu_avg_pct_median",
            "postgis_mem_avg_mib_median", "geoserver_mem_avg_mib_median"]
        ++ ["n_reps"]
  ∧ (∀ rows : List Row,
      (write_csv RUNS_AGG_COLUMNS rows).head? = some (RUNS_AGG_COLUMNS.map PyVal.vStr))
  ∧ (∀ rows : List Row, ∀ line ∈ write_csv RUNS_AGG_COLUMNS rows, line.length = 17) := by
  refine ⟨by decide, by decide, fun rows => rfl, fun rows line hline => ?_⟩
  rcases List.mem_cons.mp hline with h | h
  · subst h
    decide
  · rcases List.mem_map.mp h with ⟨r, _, rfl⟩
    simp [RUNS_AGG_COLUMNS]

/-- C7, counterexample to the claim as stated: the aggregated schema
does not have 16 columns (it has 17). -/
theorem runs_agg_schema_not_16 : ¬ RUNS_AGG_COLUMNS.length = 16 := by decide

/-- C4: bundle-name metadata extraction.  Scenario: the
hyphen-terminated name prefixes `baseline-` / `cache-` win first (in
that order — they are mutually exclusive), else substring containment
with `baseline` checked before `cache`, else `"unknown"`.  Resolution,
ttl, hot, invalidation and Zipf skew come from the first match of their
token patterns, with defaults 0, `""`, `""`, `""` and not-a-number;
the extractor is a total function (it never fails), and the
documentation example parses as stated. -/
theorem parse_bundle_meta_spec (bundle_name : String) :
    (pyStartsWith (pyStrip bundle_name) "baseline-" = true →
        (parse_bundle_meta bundle_name).scenario = "baseline")
  ∧ (pyStartsWith (pyStrip bundle_name) "cache-" = true →
        (parse_bundle_meta bundle_name).scenario = "cache")
  ∧ (pyStartsWith (pyStrip bundle_name) "baseline-" = false →
      pyStartsWith (pyStrip bundle_name) "cache-" = false →
      hasSub (pyStrip bundle_name).toList "baseline".toList = true →
        (parse_bundle_meta bundle_name).scenario = "baseline")
  ∧ (pyStartsWith (pyStrip bundle_name) "baseline-" = false →
      pyStartsWith (pyStrip bundle_name) "cache-" = false →
      hasSub (pyStrip bundle_name).toList "baseline".toList = false →
      hasSub (pyStrip bundle_name).toList "cache".toList = true →
        (parse_bundle_meta bundle_name).scenario = "cache")
  ∧ (pyStartsWith (pyStrip bundle_name) "baseline-" = false →
      pyStartsWith (pyStrip bundle_name) "cache-" = false →
      hasSub (pyStrip bundle_name).toList "baseline".toList = false →
      hasSub (pyStrip bundle_name).toList "cache".toList = false →
        (parse_bundle_meta bundle_name).scenario = "unknown")
  ∧ ((parse_bundle_meta bundle_name).h3_res
      = (match searchFirst matchRHyphen (pyStrip bundle_name).toList with
         | some n => (n : ℤ)
         | none => 0))
  ∧ ((parse_bundle_meta bundle_name).ttl
      = (match searchFirst (matchTokenAfter "-ttl".toList) (pyStrip bundle_name).toList with
         | some tok => String.mk tok
         | none => ""))
  ∧ ((parse_bundle_meta bundle_name).hot
      = (match searchFirst (matchTokenAfter "-hot".toList) (pyStrip bundle_name).toList with
         | some tok => String.mk tok
         | none => ""))
  ∧ ((parse_bundle_meta bundle_name).invalidation
      = (match searchFirst (matchTokenAfter "-inv".toList) (pyStrip bundle_name).toList with
         | some tok => String.mk tok
         | none => ""))
  ∧ ((parse_bundle_meta bundle_name).zipf_s_from_folder
      = searchFirst matchZipfs (pyStrip bundle_name).toList)
  ∧ parse_bundle_meta "cache-r9-ttl60-hotwarm-invlazy-zipfs1.3"
      = ⟨"cache", 9, "60", "warm", "lazy", some (mkRat 13 10)⟩ := by
  refine ⟨?_, ?_, ?_, ?_, ?_, rfl, rfl, rfl, rfl, rfl, by decide⟩
  · intro h1
    simp [parse_bundle_meta, h1]
  · intro h2
    have h1 : pyStartsWith (pyStrip bundle_name) "baseline-" = false := by
      rcases hb : pyStartsWith (pyStrip bundle_name) "baseline-" with _ | _
      · rfl
      · exact absurd (baseline_cache_prefixes_exclusive _ hb h2) not_false
    simp [parse_bundle_meta, h1, h2]
  · intro h1 h2 h3
    simp only [String.toList] at h3
    simp [parse_bundle_meta, h1, h2, h3]
  · intro h1 h2 h3 h4
    simp only [String.toList] at h3 h4
    simp [parse_bundle_meta, h1, h2, h3, h4]
  · intro h1 h2 h3 h4
    simp only [String.toList] at h3 h4
    simp [parse_bundle_meta, h1, h2, h3, h4]

/-- C4 witness: the prefix rules discharged at the documentation
example. -/
theorem parse_bundle_meta_spec_witness :
    (parse_bundle_meta "cache-r9-ttl60-hotwarm-invlazy-zipfs1.3").scenario = "cache" :=
  (parse_bundle_meta_spec "cache-r9-ttl60-hotwarm-invlazy-zipfs1.3").2.1 (by decide)

/-- C10: in the grouping key, `h3_res` and `target_rps` are coerced
with `safe_int`, which passes integers through, truncates numeric
strings toward zero via `int(float(s))` (floor for nonnegative values,
negated floor of the negation otherwise), and maps `None`, blank and
non-numeric values to the default 0; hence rows with `target_rps`
`100`, `"100"` and `"100.9"` form one group emitted with the integer
cell 100, and an unparsable `target_rps` groups under 0. -/
theorem safe_int_grouping_key (s : String) (q : ℚ) (d : ℤ) :
    (∀ r : Row, (keyOf r).2.1 = safe_int (r.get "h3_res") 0
       ∧ (keyOf r).2.2.2.1 = safe_int (r.get "target_rps") 0)
  ∧ (safe_int .vNone d = d)
  ∧ (∀ n : ℤ, safe_int (.vInt n) d = n)
  ∧ (pyFloat (pyStrip s) = some q → safe_int (.vStr s) d = truncQ q)
  ∧ (pyFloat (pyStrip s) = none → safe_int (.vStr s) d = d)
  ∧ (0 ≤ q → truncQ q = ⌊q⌋)
  ∧ (q < 0 → truncQ q = -⌊-q⌋)
  ∧ safe_int (.vStr "100.9") 0 = 100
  ∧ safe_int (.vStr "-100.9") 0 = -100
  ∧ safe_int (.vStr "abc") 0 = 0
  ∧ ((aggregate_runs
      [ sampleLongRow "cache" (.vInt 9) (.vInt 100) (.vInt 1) (.vInt 10) (.vInt 0)
      , sampleLongRow "cache" (.vInt 9) (.vStr "100") (.vInt 1) (.vInt 20) (.vInt 0)
      , sampleLongRow "cache" (.vInt 9) (.vStr "100.9") (.vInt 1) (.vInt 30) (.vInt 0)
      ]).map (fun a => (a.target_rps, a.n_reps)) = [(100, 3)])
  ∧ ((aggregate_runs
      [ sampleLongRow "cache" (.vInt 9) (.vStr "oops") (.vInt 1) (.vInt 10) (.vInt 0)
      ]).map (fun a => (a.target_rps, a.n_reps)) = [(0, 1)]) := by
  refine ⟨fun r => ⟨rfl, rfl⟩, rfl, fun n => rfl, ?_, ?_,
    truncQ_of_nonneg q, truncQ_of_neg q, by decide, by decide, by decide, by decide, by decide⟩
  · intro h
    by_cases ht : pyStrip s = ""
    · rw [ht, (by decide : pyFloat "" = none)] at h
      cases h
    · simp [safe_int, ht, h]
  · intro h
    by_cases ht : pyStrip s = ""
    · simp [safe_int, ht]
    · simp [safe_int, ht, h]

/-- C10 witness: the string-coercion rule discharged at `"100.9"`,
whose parsed value truncates to 100. -/
theorem safe_int_grouping_key_witness :
    safe_int (.vStr "100.9") 0 = truncQ (mkRat 1009 10) :=
  (safe_int_grouping_key "100.9" (mkRat 1009 10) 0).2.2.2.1 (by decide)

/-- C5 counterexample: three value-identical long rows — same
scenario, resolution, target and a not-a-number skew cell — group at
object precision the way CPython groups them.  All three carry one
value-level key (one logical configuration), yet the first two share
one `float("nan")` object while the third holds a distinct one, the
dict forms two keys, and the aggregator emits the single configuration
as two rows with `n_reps` 2 and 1 — the configuration is split. -/
theorem grouping_splits_on_nan_skew :
    ((nanRowsSplit.map (fun r => keyOf r.row)).dedup.length = 1)
  ∧ (objGroupKeys nanRowsSplit).length = 2
  ∧ ((objAggregate_runs nanRowsSplit).map (fun a => a.n_reps) = [2, 1])
  ∧ ((objAggregate_runs nanRowsSplit).map
        (fun a => (a.scenario, a.h3_res, a.zipf_s, a.target_rps))
      = [(PyVal.vStr "cache", 9, none, 100), (PyVal.vStr "cache", 9, none, 100)]) := by
  decide

/-- C5 (corrected): on rows whose float-coerced skew is a finite
number, grouping-key equality is the normalized tuple (scenario,
integer-coerced resolution, float-coerced skew, integer-coerced
target RPS, and the stringified ttl/hot/invalidation), so formatting
differences never split such a configuration: two rows with equal
normalized keys and finite skews receive one object-precision key
regardless of accumulation position, land in the shared group and in
no group not keyed by themselves, and the dict keys are
pairwise-distinct; string-formatted `"9"`/`"100"`/`"1.3"` coincide
with their numeric forms.  On not-a-number skews key equality is
CPython float-object identity and one configuration can split
(`grouping_splits_on_nan_skew`). -/
theorem grouping_key_object_identity (rows : List ObjRow) (i j : ℕ) (r1 r2 : ObjRow)
    (q1 q2 : ℚ) (h1 : (i, r1) ∈ rows.enum) (h2 : (j, r2) ∈ rows.enum)
    (hq1 : objSkewOf i r1 = .num q1) (hq2 : objSkewOf j r2 = .num q2)
    (hk : keyOf r1.row = keyOf r2.row) :
    keyOfObj i r1 = keyOfObj j r2
  ∧ (r1 ∈ objGroupRows rows (keyOfObj j r2) ∧ r2 ∈ objGroupRows rows (keyOfObj j r2))
  ∧ (∀ k, r1 ∈ objGroupRows rows k → ∃ i', (i', r1) ∈ rows.enum ∧ k = keyOfObj i' r1)
  ∧ (∀ r : Row, keyOf r
      = (r.get "scenario", safe_int (r.get "h3_res") 0, safe_float (r.get "zipf_s"),
         safe_int (r.get "target_rps") 0, pyStrOrEmpty (r.get "ttl"),
         pyStrOrEmpty (r.get "hot"), pyStrOrEmpty (r.get "invalidation")))
  ∧ (objGroupKeys rows).Nodup
  ∧ keyOfObj 0 (sampleObjRow "cache" (.vStr "9") (.vStr "100") (.vStr "1.3")
        (.vInt 10) (.vInt 0) none)
      = keyOfObj 5 (sampleObjRow "cache" (.vInt 9) (.vInt 100)
          (.vFloat (some (mkRat 13 10))) (.vInt 20) (.vInt 7) none) := by
  have he : keyOfObj i r1 = keyOfObj j r2 := by
    rw [keyOfObj_num hq1, keyOfObj_num hq2, hk]
  refine ⟨he, ⟨?_, ?_⟩, ?_, fun r => rfl, firstDedup_nodup _, by decide⟩
  · have hf : (i, r1) ∈ rows.enum.filter
        (fun p => decide (keyOfObj p.1 p.2 = keyOfObj j r2)) :=
      List.mem_filter.mpr ⟨h1, decide_eq_true he⟩
    rw [objGroupRows]
    exact List.mem_map_of_mem (fun p => p.2) hf
  · have hf : (j, r2) ∈ rows.enum.filter
        (fun p => decide (keyOfObj p.1 p.2 = keyOfObj j r2)) :=
      List.mem_filter.mpr ⟨h2, decide_eq_true rfl⟩
    rw [objGroupRows]
    exact List.mem_map_of_mem (fun p => p.2) hf
  · intro k hmem
    rw [objGroupRows] at hmem
    obtain ⟨p, hpf, hp2⟩ := List.mem_map.mp hmem
    obtain ⟨hpe, hpk⟩ := List.mem_filter.mp hpf
    have hpp : (p.1, r1) = p := by rw [← hp2]
    refine ⟨p.1, by rw [hpp]; exact hpe, ?_⟩
    have hkk : keyOfObj p.1 p.2 = k := of_decide_eq_true hpk
    rw [← hkk, hp2]

/-- C5 witness: two finite-skew rows with the same configuration
formatted differently are both members of the shared group. -/
theorem grouping_key_object_identity_witness :
    sampleObjRow "cache" (.vStr "9") (.vStr "100") (.vStr "1.3") (.vInt 10) (.vInt 0) none
      ∈ objGroupRows
        [ sampleObjRow "cache" (.vStr "9") (.vStr "100") (.vStr "1.3") (.vInt 10) (.vInt 0) none
        , sampleObjRow "cache" (.vInt 9) (.vInt 100) (.vFloat (some (mkRat 13 10)))
            (.vInt 20) (.vInt 7) none ]
        (keyOfObj 1 (sampleObjRow "cache" (.vInt 9) (.vInt 100)
          (.vFloat (some (mkRat 13 10))) (.vInt 20) (.vInt 7) none))
    ∧ sampleObjRow "cache" (.vInt 9) (.vInt 100) (.vFloat (some (mkRat 13 10)))
        (.vInt 20) (.vInt 7) none
      ∈ objGroupRows
        [ sampleObjRow "cache" (.vStr "9") (.vStr "100") (.vStr "1.3") (.vInt 10) (.vInt 0) none
        , sampleObjRow "cache" (.vInt 9) (.vInt 100) (.vFloat (some (mkRat 13 10)))
            (.vInt 20) (.vInt 7) none ]
        (keyOfObj 1 (sampleObjRow "cache" (.vInt 9) (.vInt 100)
          (.vFloat (some (mkRat 13 10))) (.vInt 20) (.vInt 7) none)) :=
  (grouping_key_object_identity _ 0 1 _ _ (mkRat 13 10) (mkRat 13 10)
    (List.mem_cons_self _ _)
    (List.mem_cons_of_mem _ (List.mem_cons_self _ _))
    (by decide) (by decide) (by decide)).2.1

/-- C1: each aggregated row reduces its group exactly as specified:
the four latency/throughput metrics and the four resource metrics are
medians over the group's values with not-a-number entries ignored
(inserting a not-a-number value never changes a median, and an
all-not-a-number group yields not-a-number rather than an error),
`errors_sum` sums the group's `errors` with unparsable entries counted
as 0, and `n_reps` is the group's cardinality; the documentation
example `[10, 20, nan, 30]` has median 20 with `n_reps` 4. -/
theorem aggregator_group_reduction (rows : List Row) (k : GroupKey)
    (hk : k ∈ rows.map keyOf) :
    (aggOne k (groupRows rows k) ∈ aggregate_runs rows)
  ∧ (∀ g : List Row,
        (aggOne k g).p50_ms_median = median_ignore_nan (g.map (fun r => r.get "p50_ms"))
      ∧ (aggOne k g).p95_ms_median = median_ignore_nan (g.map (fun r => r.get "p95_ms"))
      ∧ (aggOne k g).p99_ms_median = median_ignore_nan (g.map (fun r => r.get "p99_ms"))
      ∧ (aggOne k g).throughput_rps_median
          = median_ignore_nan (g.map (fun r => r.get "throughput_rps"))
      ∧ (aggOne k g).errors_sum = (g.map (fun r => safe_int (r.get "errors") 0)).sum
      ∧ (aggOne k g).postgis_cpu_avg_pct_median
          = median_ignore_nan (g.map (fun r => r.get "postgis_cpu_avg_pct"))
      ∧ (aggOne k g).geoserver_cpu_avg_pct_median
          = median_ignore_nan (g.map (fun r => r.get "geoserver_cpu_avg_pct"))
      ∧ (aggOne k g).postgis_mem_avg_mib_median
          = median_ignore_nan (g.map (fun r => r.get "postgis_mem_avg_mib"))
      ∧ (aggOne k g).geoserver_mem_avg_mib_median
          = median_ignore_nan (g.map (fun r => r.get "geoserver_mem_avg_mib"))
      ∧ (aggOne k g).n_reps = g.length)
  ∧ (∀ va vb : List PyVal,
      median_ignore_nan (va ++ .vFloat none :: vb) = median_ignore_nan (va ++ vb))
  ∧ (∀ vals : List PyVal, (∀ v ∈ vals, safe_float v = none) → median_ignore_nan vals = none)
  ∧ median_ignore_nan [.vInt 10, .vInt 20, .vFloat none, .vInt 30] = some 20
  ∧ ((aggregate_runs
      [ sampleLongRow "cache" (.vInt 9) (.vInt 100) (.vInt 1) (.vInt 10) (.vInt 1)
      , sampleLongRow "cache" (.vInt 9) (.vInt 100) (.vInt 1) (.vInt 20) (.vInt 2)
      , sampleLongRow "cache" (.vInt 9) (.vInt 100) (.vInt 1) (.vFloat none) (.vInt 3)
      , sampleLongRow "cache" (.vInt 9) (.vInt 100) (.vInt 1) (.vInt 30) (.vInt 4)
      ]).map (fun a => (a.p50_ms_median, a.errors_sum, a.n_reps)) = [(some 20, 10, 4)]) := by
  refine ⟨?_, fun g => ⟨rfl, rfl, rfl, rfl, rfl, rfl, rfl, rfl, rfl, rfl⟩, ?_, ?_,
    by decide, by decide⟩
  · have hks : k ∈ (groupKeys rows).insertionSort keyLeProp :=
      ((List.perm_insertionSort keyLeProp _).mem_iff).mpr (List.mem_dedup.mpr hk)
    simpa only [aggregate_runs] using
      List.mem_map_of_mem (fun k => aggOne k (groupRows rows k)) hks
  · intro va vb
    simp [median_ignore_nan, List.filterMap_append, List.filterMap_cons, safe_float]
  · intro vals hv
    have hnil : vals.filterMap safe_float = [] := List.filterMap_eq_nil_iff.mpr hv
    simp [median_ignore_nan, hnil]

/-- C1 witness: the group of the four-replication example is reduced
inside the aggregated output. -/
theorem aggregator_group_reduction_witness :
    aggOne
      (keyOf (sampleLongRow "cache" (.vInt 9) (.vInt 100) (.vInt 1) (.vInt 10) (.vInt 1)))
      (groupRows
        [ sampleLongRow "cache" (.vInt 9) (.vInt 100) (.vInt 1) (.vInt 10) (.vInt 1)
        , sampleLongRow "cache" (.vInt 9) (.vInt 100) (.vInt 1) (.vInt 20) (.vInt 2)
        , sampleLongRow "cache" (.vInt 9) (.vInt 100) (.vInt 1) (.vFloat none) (.vInt 3)
        , sampleLongRow "cache" (.vInt 9) (.vInt 100) (.vInt 1) (.vInt 30) (.vInt 4) ]
        (keyOf (sampleLongRow "cache" (.vInt 9) (.vInt 100) (.vInt 1) (.vInt 10) (.vInt 1))))
    ∈ aggregate_runs
        [ sampleLongRow "cache" (.vInt 9) (.vInt 100) (.vInt 1) (.vInt 10) (.vInt 1)
        , sampleLongRow "cache" (.vInt 9) (.vInt 100) (.vInt 1) (.vInt 20) (.vInt 2)
        , sampleLongRow "cache" (.vInt 9) (.vInt 100) (.vInt 1) (.vFloat none) (.vInt 3)
        , sampleLongRow "cache" (.vInt 9) (.vInt 100) (.vInt 1) (.vInt 30) (.vInt 4) ] :=
  (aggregator_group_reduction _ _ (by decide)).1

/-- C6 counterexample: three configurations whose keys hold pairwise
distinct `float("nan")` skew objects are pairwise incomparable under
Python `<`, so `sorted` keeps dict insertion order: accumulated one
way the aggregator emits targets `[100, 100, 50]`, accumulated in a
rotated order — a permutation of the same rows — it emits
`[50, 100, 100]`.  The output depends on accumulation order, the two
aggregated tables differ, and the emitted keys are not ascending. -/
theorem aggregation_order_dependent_on_nan_skew :
    ((objAggregate_runs nanRowsOrder).map (fun a => a.target_rps) = [100, 100, 50])
  ∧ ((objAggregate_runs nanRowsOrderPerm).map (fun a => a.target_rps) = [50, 100, 100])
  ∧ nanRowsOrderPerm.Perm nanRowsOrder
  ∧ objAggregate_runs nanRowsOrder ≠ objAggregate_runs nanRowsOrderPerm
  ∧ ¬ List.Pairwise (fun k1 k2 => pyKeyLt k1 k2 = true ∨ k1 = k2)
      (objAggKeys nanRowsOrder) := by
  refine ⟨by decide, by decide, ?_, by decide, by decide⟩
  exact @List.perm_append_comm _
    [ sampleObjRow "cache" (.vInt 9) (.vInt 50) (.vFloat none) (.vInt 30) (.vInt 0) (some 2) ]
    [ sampleObjRow "cache" (.vInt 9) (.vInt 100) (.vFloat none) (.vInt 10) (.vInt 0) (some 0)
    , sampleObjRow "cache" (.vInt 9) (.vInt 100) (.vFloat none) (.vInt 20) (.vInt 0) (some 1) ]

/-- C6 (corrected): as long as every accumulated row's skew coerces to
a finite float, the object-precision aggregation coincides with the
value-level one, the aggregated rows are emitted sorted strictly
ascending by the grouping key, and the whole aggregated table — hence
its serialized form — is invariant under any permutation of the
accumulated long rows; the pipeline being a pure function of its
inputs, re-running it on unchanged inputs reproduces both tables
exactly.  With not-a-number skews in the keys the emission instead
follows dict insertion order and depends on accumulation order
(`aggregation_order_dependent_on_nan_skew`). -/
theorem aggregate_sorted_on_finite_keys (rows rows' : List ObjRow)
    (hfin : ∀ r ∈ rows, r.zipfObj = none ∧ (safe_float (r.row.get "zipf_s")).isSome)
    (hperm : rows.Perm rows') :
    objAggregate_runs rows = aggregate_runs (rows.map (fun r => r.row))
  ∧ objAggregate_runs rows = objAggregate_runs rows'
  ∧ List.Pairwise (fun k1 k2 => pyKeyLt k1 k2 = true) (objAggKeys rows)
  ∧ write_csv RUNS_AGG_COLUMNS ((objAggregate_runs rows).map AggRow.toRow)
      = write_csv RUNS_AGG_COLUMNS ((objAggregate_runs rows').map AggRow.toRow) := by
  have hfin' : ∀ r ∈ rows', r.zipfObj = none ∧ (safe_float (r.row.get "zipf_s")).isSome :=
    fun r hr => hfin r (hperm.mem_iff.mpr hr)
  have hb := objAggregate_eq_finite rows hfin
  have hb' := objAggregate_eq_finite rows' hfin'
  have heq : objAggregate_runs rows = objAggregate_runs rows' := by
    rw [hb, hb']
    exact aggregate_runs_eq_of_perm (hperm.map _)
  refine ⟨hb, heq, ?_, by rw [heq]⟩
  rw [objAggKeys_eq_finite rows hfin, List.pairwise_map]
  have hS : List.Pairwise keyLeProp
      ((((rows.map (fun r => r.row)).map keyOf).dedup).insertionSort keyLeProp) :=
    List.sorted_insertionSort _ _
  have hnd : ((((rows.map (fun r => r.row)).map keyOf).dedup).insertionSort
      keyLeProp).Nodup :=
    ((List.perm_insertionSort _ _).nodup_iff).mpr (List.nodup_dedup _)
  refine (hS.and hnd).imp_of_mem ?_
  intro a b ha hb2 hab
  obtain ⟨qa, hqa⟩ := dedup_skew_some hfin ((List.perm_insertionSort _ _).mem_iff.mp ha)
  obtain ⟨qb, hqb⟩ := dedup_skew_some hfin ((List.perm_insertionSort _ _).mem_iff.mp hb2)
  refine (pyKeyLt_lift a b qa qb hqa hqb).mpr ?_
  exact lt_of_le_of_ne hab.1 (fun hc => hab.2 (keyEnc_inj hc))

/-- C6 witness: swapping two finite-skew long rows leaves the
object-precision aggregated table unchanged. -/
theorem aggregate_sorted_on_finite_keys_witness :
    objAggregate_runs
      [ sampleObjRow "cache" (.vInt 9) (.vInt 100) (.vInt 1) (.vInt 10) (.vInt 1) none
      , sampleObjRow "baseline" (.vInt 0) (.vInt 50) (.vInt 1) (.vInt 20) (.vInt 2) none ]
    = objAggregate_runs
      [ sampleObjRow "baseline" (.vInt 0) (.vInt 50) (.vInt 1) (.vInt 20) (.vInt 2) none
      , sampleObjRow "cache" (.vInt 9) (.vInt 100) (.vInt 1) (.vInt 10) (.vInt 1) none ] :=
  (aggregate_sorted_on_finite_keys _ _ (by decide) (List.Perm.swap _ _ _)).2.1

theorem overlaySummary_get (s : Summary) (r : Row) (c : String)
    (h : c ∈ SUMMARY_COPY_KEYS) :
    (overlaySummary s r).get c = (lookupKey s c).getD (r.get c) :=
  foldl_copy_get_of_mem s _ r c h (by decide)

/-- C3: `achieved_to_target_ratio` is the summary's value whenever the
summary supplies a non-blank one, and is recomputed as
`throughput_rps / target_rps` whenever the cell is blank or absent
(present-but-empty and present-but-`None` both retrigger the
computation); the derived value is not-a-number when `target_rps` is
zero (`derivedRatio _ (some 0)`), missing or non-numeric (both coerce
to not-a-number, `derivedRatio _ none`). -/
theorem achieved_ratio_rule (root_id bundle_name : String) (meta : BundleMeta)
    (rep_num : ℕ) (summary : Summary) (docker : List DockerRow) :
    (isBlankOrNone (summaryValueOr summary "achieved_to_target_ratio") = false →
      (assembleRow root_id bundle_name meta rep_num summary docker).get
        "achieved_to_target_ratio" = summaryValueOr summary "achieved_to_target_ratio")
  ∧ (isBlankOrNone (summaryValueOr summary "achieved_to_target_ratio") = true →
      (assembleRow root_id bundle_name meta rep_num summary docker).get
        "achieved_to_target_ratio"
        = .vFloat (derivedRatio (safe_float (summaryValueOr summary "throughput_rps"))
            (safe_float (summaryValueOr summary "target_rps"))))
  ∧ (∀ thr, derivedRatio thr none = none)
  ∧ (∀ thr, derivedRatio thr (some 0) = none)
  ∧ (∀ thr t, t ≠ 0 → derivedRatio (some thr) (some t) = some (thr / t))
  ∧ safe_float (.vStr "") = none
  ∧ safe_float .vNone = none
  ∧ (∀ s, pyFloat (pyStrip s) = none → safe_float (.vStr s) = none) := by
  have hbase_r : (baseRow root_id bundle_name meta rep_num).get
      "achieved_to_target_ratio" = .vStr "" := by
    simp [baseRow, Row.set, Row.get, emptyRow]
  have hbase_t : (baseRow root_id bundle_name meta rep_num).get
      "throughput_rps" = .vStr "" := by
    simp [baseRow, Row.set, Row.get, emptyRow]
  have hbase_g : (baseRow root_id bundle_name meta rep_num).get
      "target_rps" = .vStr "" := by
    simp [baseRow, Row.set, Row.get, emptyRow]
  have hov_r : (overlaySummary summary (baseRow root_id bundle_name meta rep_num)).get
      "achieved_to_target_ratio" = summaryValueOr summary "achieved_to_target_ratio" := by
    rw [overlaySummary_get _ _ _ (by decide), hbase_r]
    rfl
  have hov_t : (overlaySummary summary (baseRow root_id bundle_name meta rep_num)).get
      "throughput_rps" = summaryValueOr summary "throughput_rps" := by
    rw [overlaySummary_get _ _ _ (by decide), hbase_t]
    rfl
  have hov_g : (overlaySummary summary (baseRow root_id bundle_name meta rep_num)).get
      "target_rps" = summaryValueOr summary "target_rps" := by
    rw [overlaySummary_get _ _ _ (by decide), hbase_g]
    rfl
  have hfin : ∀ R : Row, (dockerStage docker (zipfStage meta R)).get
      "achieved_to_target_ratio" = R.get "achieved_to_target_ratio" := by
    intro R
    simp only [dockerStage, zipfStage]
    rw [Row.get_set_ne _ _ _ _ (by decide), Row.get_set_ne _ _ _ _ (by decide),
      Row.get_set_ne _ _ _ _ (by decide), Row.get_set_ne _ _ _ _ (by decide)]
    split
    · rw [Row.get_set_ne _ _ _ _ (by decide)]
    · rfl
  refine ⟨?_, ?_, fun thr => rfl, fun thr => by simp [derivedRatio],
    fun thr t ht => by simp [derivedRatio, ht, qDiv_eq], by decide, rfl, ?_⟩
  · intro hnb
    rw [assembleRow, hfin, ratioStage, hov_r, hnb]
    simp only [Bool.false_eq_true, if_false]
    exact hov_r
  · intro hb
    rw [assembleRow, hfin, ratioStage, hov_r, hb]
    simp only [if_true]
    rw [Row.get_set_same, hov_t, hov_g]
  · intro s hs
    by_cases ht : pyStrip s = "" <;> simp [safe_float, ht, hs]

/-- C3 witness: a summary carrying a blank ratio and no throughput or
target fields gets the recomputed (not-a-number) ratio. -/
theorem achieved_ratio_rule_witness :
    (assembleRow "r" "b" (parse_bundle_meta "cache-r9-") 1
      [("achieved_to_target_ratio", .vStr "")] []).get "achieved_to_target_ratio"
    = .vFloat (derivedRatio
        (safe_float (summaryValueOr [("achieved_to_target_ratio", .vStr "")] "throughput_rps"))
        (safe_float (summaryValueOr [("achieved_to_target_ratio", .vStr "")] "target_rps"))) :=
  (achieved_ratio_rule "r" "b" (parse_bundle_meta "cache-r9-") 1
    [("achieved_to_target_ratio", .vStr "")] []).2.1 (by decide)

/-- C9: failures are localized.  A root that does not exist or is not a
directory contributes no rows, and the corpus decomposes per root, so
other roots are unaffected; a replication with a missing summary file,
a missing `docker_stats.csv`, an unreadable/invalid summary, or a
summary parsing to the empty (falsy) object contributes no row, and
dropping any `none`-producing replication leaves every other
replication's contribution unchanged; the bundle rows are exactly the
per-replication contributions of its lexically sorted `rep<N>`
subdirectories; and both output tables are always produced
header-first. -/
theorem failure_localization (roots1 roots2 : List RootDir) (root : RootDir)
    (root_id bundle_name : String) (meta : BundleMeta) (rep : RepEntry) :
    ((¬ root.exists_ ∨ ¬ root.isDir) → rootRows root = [])
  ∧ (collect_runs (roots1 ++ root :: roots2)
      = collect_runs roots1 ++ rootRows root ++ collect_runs roots2)
  ∧ (findFile rep.files (meta.scenario ++ "_summary.json") = none →
      repRowOf root_id bundle_name meta rep = none)
  ∧ (rep.hasDocker = false → repRowOf root_id bundle_name meta rep = none)
  ∧ (findFile rep.files (meta.scenario ++ "_summary.json") = some none →
      repRowOf root_id bundle_name meta rep = none)
  ∧ (findFile rep.files (meta.scenario ++ "_summary.json") = some (some []) →
      repRowOf root_id bundle_name meta rep = none)
  ∧ (∀ (l1 l2 : List RepEntry) (f : RepEntry → Option Row),
      f rep = none → (l1 ++ rep :: l2).filterMap f = (l1 ++ l2).filterMap f)
  ∧ (∀ b : BundleEntry, b.isDir = true → bundleRows root_id b
      = (sortByName RepEntry.name (b.reps.filter (fun r => r.isDir))).filterMap
          (repRowOf root_id b.name (parse_bundle_meta b.name)))
  ∧ (∀ roots : List RootDir,
        (run_pipeline roots).1.head? = some (RUNS_LONG_COLUMNS.map PyVal.vStr)
      ∧ (run_pipeline roots).2.head? = some (RUNS_AGG_COLUMNS.map PyVal.vStr)) := by
  refine ⟨?_, ?_, ?_, ?_, ?_, ?_, ?_, ?_, fun roots => ⟨rfl, rfl⟩⟩
  · intro h
    rw [rootRows, if_pos h]
  · simp [collect_runs, List.append_assoc]
  · intro h
    rw [repRowOf]
    cases parse_rep_int rep.name <;> simp [h]
  · intro h
    rw [repRowOf]
    cases parse_rep_int rep.name <;>
      cases findFile rep.files (meta.scenario ++ "_summary.json") <;> simp [h]
  · intro h
    rw [repRowOf]
    cases parse_rep_int rep.name <;> simp [h]
  · intro h
    rw [repRowOf]
    cases parse_rep_int rep.name <;> simp [h]
  · intro l1 l2 f hf
    simp [List.filterMap_append, List.filterMap_cons, hf]
  · intro b hb
    simp [bundleRows, hb]

/-- C9 witness: a missing root contributes nothing. -/
theorem failure_localization_witness :
    rootRows ⟨"gone", false, true, []⟩ = [] :=
  (failure_localization [] [] ⟨"gone", false, true, []⟩ "r" "b"
    (parse_bundle_meta "b") ⟨"rep1", true, [], true, []⟩).1
    (Or.inl (by decide))

theorem isDigitC_not_space {c : Char} (h : isDigitC c = true) : isSpaceC c = false := by
  simp [isDigitC, isSpaceC] at *
  omega

theorem isAlphaC_not_digit {c : Char} (h : isAlphaC c = true) : isDigitC c = false := by
  simp [isAlphaC, isDigitC] at *
  omega

theorem isAlphaC_not_space {c : Char} (h : isAlphaC c = true) : isSpaceC c = false := by
  simp [isAlphaC, isSpaceC] at *
  omega

theorem isAlphaC_ne_dot {c : Char} (h : isAlphaC c = true) : c ≠ '.' := by
  rintro rfl
  simp [isAlphaC] at h

theorem decValue_int (ds : List Char) : decValue 1 ds [] 0 = (digitsVal ds : ℚ) := by
  simp [decValue, digitsVal, Rat.mkRat_one]

/-- A digit run followed by a letter run is split by the memory regex
into magnitude and unit exactly there. -/
theorem mem_to_mib_digits_unit (ds us : List Char) (hd : ds ≠ [])
    (hda : ds.all isDigitC = true) (hu : us ≠ []) (hua : us.all isAlphaC = true) :
    mem_to_mib (String.mk (ds ++ us)) = unitToMib (decValue 1 ds [] 0) (String.mk us) := by
  have hds : ∀ c ∈ ds, isDigitC c = true := by simpa using hda
  have hus : ∀ c ∈ us, isAlphaC c = true := by simpa using hua
  obtain ⟨d, ds', rfl⟩ : ∃ d ds', ds = d :: ds' := by
    cases ds with
    | nil => exact absurd rfl hd
    | cons d t => exact ⟨d, t, rfl⟩
  obtain ⟨u, us', rfl⟩ : ∃ u us', us = u :: us' := by
    cases us with
    | nil => exact absurd rfl hu
    | cons u t => exact ⟨u, t, rfl⟩
  have hdd : isDigitC d = true := hds d (List.mem_cons_self _ _)
  have huu : isAlphaC u = true := hus u (List.mem_cons_self _ _)
  have h1 : ((d :: ds') ++ (u :: us')).dropWhile isSpaceC = (d :: ds') ++ (u :: us') := by
    rw [List.cons_append, List.dropWhile_cons_of_neg (by simp [isDigitC_not_space hdd])]
  have h2 : ((d :: ds') ++ (u :: us')).takeWhile isDigitC = d :: ds' := by
    rw [List.takeWhile_append_of_pos hds,
      List.takeWhile_cons_of_neg (by simp [isAlphaC_not_digit huu]), List.append_nil]
  have h3 : ((d :: ds') ++ (u :: us')).dropWhile isDigitC = u :: us' := by
    rw [List.dropWhile_append_of_pos hds,
      List.dropWhile_cons_of_neg (by simp [isAlphaC_not_digit huu])]
  have h4 : (u :: us').dropWhile isSpaceC = u :: us' := by
    rw [List.dropWhile_cons_of_neg (by simp [isAlphaC_not_space huu])]
  have h5 : (u :: us').takeWhile isAlphaC = u :: us' :=
    List.takeWhile_eq_self_iff.mpr hus
  have h6 : (u :: us').dropWhile isAlphaC = [] :=
    List.dropWhile_eq_nil_iff.mpr hus
  have hmem : memNum ((d :: ds') ++ (u :: us'))
      = some (decValue 1 (d :: ds') [] 0, u :: us') := by
    rw [memNum]
    simp only [h2, h3, List.head?_cons]
    rw [if_neg (by simp [Option.some.injEq]; exact isAlphaC_ne_dot huu),
      if_neg (by simp)]
  rw [mem_to_mib]
  simp only [String.toList]
  rw [h1, hmem]
  simp only [h4, h5, h6, List.dropWhile_nil]
  rw [if_neg (by simp)]

/-- A pure letter run has no leading magnitude: the regex fails. -/
theorem mem_to_mib_alpha_only (us : List Char) (hu : us ≠ [])
    (hua : us.all isAlphaC = true) :
    mem_to_mib (String.mk us) = none := by
  have hus : ∀ c ∈ us, isAlphaC c = true := by simpa using hua
  obtain ⟨u, us', rfl⟩ : ∃ u us', us = u :: us' := by
    cases us with
    | nil => exact absurd rfl hu
    | cons u t => exact ⟨u, t, rfl⟩
  have huu : isAlphaC u = true := hus u (List.mem_cons_self _ _)
  have h4 : (u :: us').dropWhile isSpaceC = u :: us' := by
    rw [List.dropWhile_cons_of_neg (by simp [isAlphaC_not_space huu])]
  have hmem : memNum (u :: us') = none := by
    rw [memNum]
    simp only [List.takeWhile_cons_of_neg (by simp [isAlphaC_not_digit huu] : ¬ isDigitC u = true),
      List.dropWhile_cons_of_neg (by simp [isAlphaC_not_digit huu] : ¬ isDigitC u = true),
      List.head?_cons]
    rw [if_neg (by simp [Option.some.injEq]; exact isAlphaC_ne_dot huu), if_pos (by simp)]
  rw [mem_to_mib]
  simp only [String.toList]
  rw [h4, hmem]

/-- The `"used/limit"` split: only the text before the first slash is
parsed. -/
theorem parse_mem_usage_split (used limit : String)
    (h : ∀ c ∈ used.toList, c ≠ '/') :
    parse_mem_usage_to_mib (used ++ "/" ++ limit) = mem_to_mib (pyStrip used) := by
  have hlist : (used ++ "/" ++ limit).toList = used.toList ++ '/' :: limit.toList := by
    simp only [String.toList, String.data_append, List.append_assoc]
    rfl
  have htake : (used.toList ++ '/' :: limit.toList).takeWhile (fun c => c ≠ '/') = used.toList := by
    rw [List.takeWhile_append_of_pos (by simpa using h),
      List.takeWhile_cons_of_neg (by simp), List.append_nil]
  rw [parse_mem_usage_to_mib, hlist, htake]
  rfl

/-- C8: the memory parser accepts a leading decimal magnitude followed
by a unit among B, KiB, MiB, GiB, TiB, KB, MB, GB — binary units
converting by powers of 1024, decimal units by powers of 1000
normalized to MiB by 1024² — for every magnitude (exact round-trip of
the digits); an unrecognized letter unit or a missing magnitude yields
not-a-number; and a combined `used/limit` string is split on the first
`/` with only the used side parsed. -/
theorem memory_parser_spec (ds us : List Char) (used limit : String) :
    (ds ≠ [] → ds.all isDigitC = true →
        mem_to_mib (String.mk (ds ++ "B".toList))
          = some ((digitsVal ds : ℚ) / (1024 * 1024))
      ∧ mem_to_mib (String.mk (ds ++ "KiB".toList))
          = some ((digitsVal ds : ℚ) / 1024)
      ∧ mem_to_mib (String.mk (ds ++ "MiB".toList))
          = some ((digitsVal ds : ℚ))
      ∧ mem_to_mib (String.mk (ds ++ "GiB".toList))
          = some ((digitsVal ds : ℚ) * 1024)
      ∧ mem_to_mib (String.mk (ds ++ "TiB".toList))
          = some ((digitsVal ds : ℚ) * (1024 * 1024))
      ∧ mem_to_mib (String.mk (ds ++ "KB".toList))
          = some ((digitsVal ds : ℚ) * 1000 / (1024 * 1024))
      ∧ mem_to_mib (String.mk (ds ++ "MB".toList))
          = some ((digitsVal ds : ℚ) * (1000 * 1000) / (1024 * 1024))
      ∧ mem_to_mib (String.mk (ds ++ "GB".toList))
          = some ((digitsVal ds : ℚ) * (1000 * 1000 * 1000) / (1024 * 1024)))
  ∧ (ds ≠ [] → ds.all isDigitC = true → us ≠ [] → us.all isAlphaC = true →
      String.mk us ∉ ["B", "KiB", "MiB", "GiB", "TiB", "KB", "MB", "GB"] →
      mem_to_mib (String.mk (ds ++ us)) = none)
  ∧ (us ≠ [] → us.all isAlphaC = true → mem_to_mib (String.mk us) = none)
  ∧ ((∀ c ∈ used.toList, c ≠ '/') →
      parse_mem_usage_to_mib (used ++ "/" ++ limit) = mem_to_mib (pyStrip used))
  ∧ mem_to_mib "1.5GiB" = some 1536
  ∧ mem_to_mib "15.MiB" = none
  ∧ mem_to_mib "" = none
  ∧ parse_mem_usage_to_mib "1.5GiB/4GiB" = some 1536 := by
  refine ⟨?_, ?_, mem_to_mib_alpha_only us, parse_mem_usage_split used limit,
    by decide, by decide, by decide, by decide⟩
  · intro hd hda
    refine ⟨?_, ?_, ?_, ?_, ?_, ?_, ?_, ?_⟩ <;>
      rw [mem_to_mib_digits_unit ds _ hd hda (by decide) (by decide)] <;>
      simp [unitToMib, decValue_int, qDivNat_eq, qMulNat_eq, qMulDivNat_eq] <;>
      norm_num
  · intro hd hda hu hua hne
    rw [mem_to_mib_digits_unit ds us hd hda hu hua]
    obtain ⟨h1, h2, h3, h4, h5, h6, h7, h8⟩ :
        String.mk us ≠ "B" ∧ String.mk us ≠ "KiB" ∧ String.mk us ≠ "MiB"
          ∧ String.mk us ≠ "GiB" ∧ String.mk us ≠ "TiB" ∧ String.mk us ≠ "KB"
          ∧ String.mk us ≠ "MB" ∧ String.mk us ≠ "GB" := by
      simpa using hne
    simp [unitToMib, h1, h2, h3, h4, h5, h6, h7, h8]

/-- C8 witness: the per-unit conversion rules discharged at the
three-digit magnitude `512`. -/
theorem memory_parser_spec_witness :
    mem_to_mib (String.mk ('5' :: '1' :: '2' :: "GiB".toList))
      = some ((digitsVal ['5', '1', '2'] : ℚ) * 1024) :=
  ((memory_parser_spec ['5', '1', '2'] ['X'] "" "").1 (by decide) (by decide)).2.2.2.1

/-- The per-row loop body with a parsed window keeps exactly the
tracked, parsable, comparable, inside-the-inclusive-window samples. -/
theorem dockerRowEntry_some_window (sd ed : DateTime) (row : DockerRow) :
    dockerRowEntry (some (sd, ed)) row
      = if keptByWindow sd ed row then some (sampleOf row) else none := by
  by_cases hc : (pyLower (pyStrip row.container) ≠ "postgis"
      ∧ pyLower (pyStrip row.container) ≠ "geoserver")
  · have ht : isTracked row = false := by
      simp only [isTracked, trackedName, decide_eq_false_iff_not]
      tauto
    simp [dockerRowEntry, hc, keptByWindow, ht]
  · have ht : isTracked row = true := by
      simp only [isTracked, trackedName, decide_eq_true_eq]
      tauto
    cases hp : parse_iso_dt (pyStrip row.ts) with
    | none => simp [dockerRowEntry, hc, hp, keptByWindow, ht]
    | some t =>
      simp only [dockerRowEntry, if_neg hc, hp, keptByWindow, ht, Bool.true_and, dtLt]
      by_cases h1 : t.tzMin.isSome = sd.tzMin.isSome
      · by_cases h2 : ed.tzMin.isSome = t.tzMin.isSome
        · have h2s : t.tzMin.isSome = ed.tzMin.isSome := h2.symm
          have h3 : sd.tzMin.isSome = ed.tzMin.isSome := h1.symm.trans h2s
          rw [if_pos h1, if_pos h2]
          by_cases hb1 : t.instantKey < sd.instantKey
          · simp [sampleOf, trackedName, h1, h2s, h3, hb1, not_le.mpr hb1]
          · by_cases hb2 : ed.instantKey < t.instantKey
            · simp [sampleOf, trackedName, h1, h2s, h3, hb1, hb2, not_le.mpr hb2]
            · simp [sampleOf, trackedName, h1, h2s, h3, hb1, hb2,
                not_lt.mp hb1, not_lt.mp hb2]
        · have h2s : ¬ t.tzMin.isSome = ed.tzMin.isSome := fun he => h2 he.symm
          have h3n : ¬ sd.tzMin.isSome = ed.tzMin.isSome := fun he => h2s (h1.trans he)
          rw [if_pos h1, if_neg h2]
          simp [h1, h2s, h3n]
      · rw [if_neg h1]
        simp [h1]

/-- The per-row loop body without a window keeps every tracked,
parsable sample. -/
theorem dockerRowEntry_no_window (row : DockerRow) :
    dockerRowEntry none row
      = if keptAlways row then some (sampleOf row) else none := by
  by_cases hc : (pyLower (pyStrip row.container) ≠ "postgis"
      ∧ pyLower (pyStrip row.container) ≠ "geoserver")
  · have ht : isTracked row = false := by
      simp only [isTracked, trackedName, decide_eq_false_iff_not]
      tauto
    simp [dockerRowEntry, hc, keptAlways, ht]
  · have ht : isTracked row = true := by
      simp only [isTracked, trackedName, decide_eq_true_eq]
      tauto
    cases hp : parse_iso_dt (pyStrip row.ts) with
    | none => simp [dockerRowEntry, hc, hp, keptAlways, ht]
    | some t => simp [dockerRowEntry, if_neg hc, hp, keptAlways, ht, sampleOf, trackedName]

theorem filterMap_if_char (rows : List DockerRow)
    (f : DockerRow → Option (String × Option ℚ × Option ℚ)) (p : DockerRow → Bool)
    (hchar : ∀ row, f row = if p row then some (sampleOf row) else none) :
    rows.filterMap f = (rows.filter p).map sampleOf := by
  induction rows with
  | nil => rfl
  | cons r t ih =>
    rw [List.filterMap_cons, List.filter_cons, hchar r]
    by_cases hp : p r <;> simp [hp, ih]

/-- C2: the Resource Window Averager.  When both window endpoints are
present and parse, exactly the tracked samples with a parsable,
comparable timestamp inside the inclusive `[start, end]` window are
retained; when either endpoint is missing or fails to parse, the window
is unset and all tracked parsable samples are retained.  Each tracked
process's metric is the arithmetic mean of its retained
non-not-a-number values (case-insensitively matched labels), a process
with no valid retained sample yielding not-a-number; the 10%/20%
inside, 90% outside example averages to exactly 15%. -/
theorem resource_window_averager (rows : List DockerRow)
    (start_iso end_iso : Option String) :
    (∀ sd ed, windowOf start_iso end_iso = some (sd, ed) →
      compute_docker_averages rows start_iso end_iso =
        { postgis_cpu_avg_pct := avgQ ((rows.filter (fun r =>
              decide (trackedName r = "postgis") && keptByWindow sd ed r)).map
              (fun r => parse_cpu_percent r.cpu_perc))
        , geoserver_cpu_avg_pct := avgQ ((rows.filter (fun r =>
              decide (trackedName r = "geoserver") && keptByWindow sd ed r)).map
              (fun r => parse_cpu_percent r.cpu_perc))
        , postgis_mem_avg_mib := avgQ ((rows.filter (fun r =>
              decide (trackedName r = "postgis") && keptByWindow sd ed r)).map
              (fun r => parse_mem_usage_to_mib r.mem_usage))
        , geoserver_mem_avg_mib := avgQ ((rows.filter (fun r =>
              decide (trackedName r = "geoserver") && keptByWindow sd ed r)).map
              (fun r => parse_mem_usage_to_mib r.mem_usage)) })
  ∧ (windowOf start_iso end_iso = none →
      compute_docker_averages rows start_iso end_iso =
        { postgis_cpu_avg_pct := avgQ ((rows.filter (fun r =>
              decide (trackedName r = "postgis") && keptAlways r)).map
              (fun r => parse_cpu_percent r.cpu_perc))
        , geoserver_cpu_avg_pct := avgQ ((rows.filter (fun r =>
              decide (trackedName r = "geoserver") && keptAlways r)).map
              (fun r => parse_cpu_percent r.cpu_perc))
        , postgis_mem_avg_mib := avgQ ((rows.filter (fun r =>
              decide (trackedName r = "postgis") && keptAlways r)).map
              (fun r => parse_mem_usage_to_mib r.mem_usage))
        , geoserver_mem_avg_mib := avgQ ((rows.filter (fun r =>
              decide (trackedName r = "geoserver") && keptAlways r)).map
              (fun r => parse_mem_usage_to_mib r.mem_usage)) })
  ∧ (start_iso = none ∨ end_iso = none → windowOf start_iso end_iso = none)
  ∧ (∀ s e, start_iso = some s → end_iso = some e →
      (parse_iso_dt s = none ∨ parse_iso_dt e = none) →
      windowOf start_iso end_iso = none)
  ∧ (∀ s e sd ed, start_iso = some s → end_iso = some e →
      parse_iso_dt s = some sd → parse_iso_dt e = some ed →
      windowOf start_iso end_iso = some (sd, ed))
  ∧ (∀ xs : List (Option ℚ), avgQ xs =
      (let ys := xs.filterMap id
       if ys.isEmpty then none else some (ys.sum / (ys.length : ℚ))))
  ∧ (∀ xs : List (Option ℚ), (∀ x ∈ xs, x = none) → avgQ xs = none)
  ∧ (compute_docker_averages
      [ ⟨"2026-01-18T10:00:01Z", "postgis", "10%", "100MiB/1GiB"⟩
      , ⟨"2026-01-18T10:00:02Z", "PostGIS ", "20%", "300MiB/1GiB"⟩
      , ⟨"2026-01-18T11:00:00Z", "postgis", "90%", "900MiB/1GiB"⟩ ]
      (some "2026-01-18T10:00:00Z")
      (some "2026-01-18T10:30:00Z")).postgis_cpu_avg_pct = some 15 := by
  refine ⟨?_, ?_, ?_, ?_, ?_, avgQ_eq, ?_, by decide⟩
  · intro sd ed hw
    rw [compute_docker_averages, hw,
      filterMap_if_char rows _ _ (dockerRowEntry_some_window sd ed)]
    simp only [List.filter_map, List.map_map, List.filter_filter, DockerAverages.mk.injEq]
    refine ⟨?_, ?_, ?_, ?_⟩ <;>
      exact congrArg avgQ (List.map_congr_left fun r _ => by simp [sampleOf])
  · intro hw
    rw [compute_docker_averages, hw,
      filterMap_if_char rows _ _ dockerRowEntry_no_window]
    simp only [List.filter_map, List.map_map, List.filter_filter, DockerAverages.mk.injEq]
    refine ⟨?_, ?_, ?_, ?_⟩ <;>
      exact congrArg avgQ (List.map_congr_left fun r _ => by simp [sampleOf])
  · intro h
    rcases h with rfl | rfl
    · cases end_iso <;> rfl
    · cases start_iso <;> rfl
  · rintro s e rfl rfl h
    rcases h with h | h
    · rw [windowOf, h]
    · rw [windowOf, h]
      cases parse_iso_dt s <;> rfl
  · rintro s e sd ed rfl rfl hs he
    rw [windowOf, hs, he]
  · intro xs hx
    have hnil : xs.filterMap id = [] := by
      rw [List.filterMap_eq_nil_iff]
      simpa using hx
    simp [avgQ, hnil]

/-- C2 witness: the windowed-retention rule discharged at the
documentation example. -/
theorem resource_window_averager_witness :
    compute_docker_averages
      [ ⟨"2026-01-18T10:00:01Z", "postgis", "10%", "100MiB/1GiB"⟩
      , ⟨"2026-01-18T10:00:02Z", "PostGIS ", "20%", "300MiB/1GiB"⟩
      , ⟨"2026-01-18T11:00:00Z", "postgis", "90%", "900MiB/1GiB"⟩ ]
      (some "2026-01-18T10:00:00Z") (some "2026-01-18T10:30:00Z") =
      { postgis_cpu_avg_pct := avgQ (([ (⟨"2026-01-18T10:00:01Z", "postgis", "10%", "100MiB/1GiB"⟩ : DockerRow)
            , ⟨"2026-01-18T10:00:02Z", "PostGIS ", "20%", "300MiB/1GiB"⟩
            , ⟨"2026-01-18T11:00:00Z", "postgis", "90%", "900MiB/1GiB"⟩ ].filter (fun r =>
              decide (trackedName r = "postgis")
                && keptByWindow ⟨2026, 1, 18, 10, 0, 0, 0, some 0⟩
                  ⟨2026, 1, 18, 10, 30, 0, 0, some 0⟩ r)).map
              (fun r => parse_cpu_percent r.cpu_perc))
      , geoserver_cpu_avg_pct := avgQ (([ (⟨"2026-01-18T10:00:01Z", "postgis", "10%", "100MiB/1GiB"⟩ : DockerRow)
            , ⟨"2026-01-18T10:00:02Z", "PostGIS ", "20%", "300MiB/1GiB"⟩
            , ⟨"2026-01-18T11:00:00Z", "postgis", "90%", "900MiB/1GiB"⟩ ].filter (fun r =>
              decide (trackedName r = "geoserver")
                && keptByWindow ⟨2026, 1, 18, 10, 0, 0, 0, some 0⟩
                  ⟨2026, 1, 18, 10, 30, 0, 0, some 0⟩ r)).map
              (fun r => parse_cpu_percent r.cpu_perc))
      , postgis_mem_avg_mib := avgQ (([ (⟨"2026-01-18T10:00:01Z", "postgis", "10%", "100MiB/1GiB"⟩ : DockerRow)
            , ⟨"2026-01-18T10:00:02Z", "PostGIS ", "20%", "300MiB/1GiB"⟩
            , ⟨"2026-01-18T11:00:00Z", "postgis", "90%", "900MiB/1GiB"⟩ ].filter (fun r =>
              decide (trackedName r = "postgis")
                && keptByWindow ⟨2026, 1, 18, 10, 0, 0, 0, some 0⟩
                  ⟨2026, 1, 18, 10, 30, 0, 0, some 0⟩ r)).map
              (fun r => parse_mem_usage_to_mib r.mem_usage))
      , geoserver_mem_avg_mib := avgQ (([ (⟨"2026-01-18T10:00:01Z", "postgis", "10%", "100MiB/1GiB"⟩ : DockerRow)
            , ⟨"2026-01-18T10:00:02Z", "PostGIS ", "20%", "300MiB/1GiB"⟩
            , ⟨"2026-01-18T11:00:00Z", "postgis", "90%", "900MiB/1GiB"⟩ ].filter (fun r =>
              decide (trackedName r = "geoserver")
                && keptByWindow ⟨2026, 1, 18, 10, 0, 0, 0, some 0⟩
                  ⟨2026, 1, 18, 10, 30, 0, 0, some 0⟩ r)).map
              (fun r => parse_mem_usage_to_mib r.mem_usage)) } :=
  (resource_window_averager _ _ _).1
    ⟨2026, 1, 18, 10, 0, 0, 0, some 0⟩ ⟨2026, 1, 18, 10, 30, 0, 0, some 0⟩ (by decide)

end CollectResults
